import Mathlib

/-!
Verification development for the `sloppy` static linter.

This file gives a shallow embedding, in Lean 4, of the parts of the
repository that the specification's claims are about:

* `src/sloppy/patterns/base.py` : the `Issue` record, `Severity`, and
  `RegexPattern.check_line`;
* `src/sloppy/patterns/noise.py` : the `DebugPrint` rule and its
  `_is_in_main_block` backward line scan;
* `src/sloppy/analyzers/duplicate_finder.py` : `extract_functions`,
  `normalize_function`, and the `difflib.SequenceMatcher` similarity ratio
  used by `find_duplicates`;
* `src/sloppy/analyzers/import_validator.py` : `module_exists`,
  `validate_import`, `check_known_hallucination`, `check_hallucinated_method`
  and their lookup tables;
* `src/sloppy/analyzers/ast_analyzer.py` : the `ASTAnalyzer` visitor with
  its nesting-depth counter and built-in deep-nesting finding;
* `src/sloppy/detector.py` : `Detector.scan` (pattern filtering by
  disabled ids, per-file phases, severity filter, final sort).

Python strings are modelled as `List Char` (`str` is a sequence of code
points; comparison is code-point lexicographic), file paths as a record of
the rendered path string plus the `name`/`parents` components the code
inspects, `float` similarity scores as `ℚ` (all quantities involved are
exact dyadic-free rationals of tiny height, so no rounding behaviour is
exercised), and Python's stateful AST visitor as explicit state passing.
External effects (file system, `importlib` probing) are inputs to the
model: the list of files with their decoded contents and parse results,
and an oracle describing the outcome of the module-existence probe.
-/

/-! ### Python string primitives (`str` as `List Char`) -/

/-- Python whitespace, as recognised by `str.strip()` / `str.isspace()`:
code points 0x9-0xd, 0x1c-0x1f, space, 0x85, 0xa0, 0x1680, 0x2000-0x200a,
0x2028, 0x2029, 0x202f, 0x205f, 0x3000. -/
def pyIsSpace (c : Char) : Bool :=
  let n := c.toNat
  (0x9 <= n && n <= 0xd) || (0x1c <= n && n <= 0x1f) || n == 0x20 ||
  n == 0x85 || n == 0xa0 || n == 0x1680 || (0x2000 <= n && n <= 0x200a) ||
  n == 0x2028 || n == 0x2029 || n == 0x202f || n == 0x205f || n == 0x3000

/-- Line boundaries recognised by Python `str.splitlines()`: code points
0xa-0xd, 0x1c-0x1e, 0x85, 0x2028, 0x2029.  (`\r\n` is handled as a single
boundary by `pySplitlinesAux`.) -/
def pyIsLineBreak (c : Char) : Bool :=
  let n := c.toNat
  (0xa <= n && n <= 0xd) || (0x1c <= n && n <= 0x1e) || n == 0x85 ||
  n == 0x2028 || n == 0x2029

/-- Python `s.strip()`: drop leading and trailing whitespace. -/
def pyStrip (l : List Char) : List Char :=
  ((l.dropWhile pyIsSpace).reverse.dropWhile pyIsSpace).reverse

/-- Python `s.startswith(needle)` (first argument is the string scanned). -/
def startsWithChars : List Char → List Char → Bool
  | _, [] => true
  | [], _ :: _ => false
  | c :: cs, d :: ds => c == d && startsWithChars cs ds

/-- Python `needle in s` substring test (second argument is the needle). -/
def containsChars : List Char → List Char → Bool
  | [], needle => startsWithChars [] needle
  | c :: cs, needle => startsWithChars (c :: cs) needle || containsChars cs needle

/-- Worker for `pySplitlines`: `cur` is the current line accumulated in
reverse.  At a boundary the line is flushed; at the end of the string the
final partial line is kept only when non-empty (Python keeps no trailing
empty line for a terminal newline). -/
def pySplitlinesAux (cur : List Char) : List Char → List (List Char)
  | [] => if cur = [] then [] else [cur.reverse]
  | '\r' :: '\n' :: cs => cur.reverse :: pySplitlinesAux [] cs
  | c :: cs =>
    if pyIsLineBreak c then cur.reverse :: pySplitlinesAux [] cs
    else pySplitlinesAux (c :: cur) cs

/-- Python `s.splitlines()`. -/
def pySplitlines (s : List Char) : List (List Char) :=
  pySplitlinesAux [] s

/-- Python `"\n".join(lines)`. -/
def pyJoinNL : List (List Char) → List Char
  | [] => []
  | [l] => l
  | l :: l' :: ls => l ++ '\n' :: pyJoinNL (l' :: ls)

/-- Code-point lexicographic strict order on strings, as Python `<` on
`str` (and on POSIX `pathlib` paths, which compare by their path string). -/
def strLtB : List Char → List Char → Bool
  | [], [] => false
  | [], _ :: _ => true
  | _ :: _, [] => false
  | a :: as, b :: bs =>
    if a.toNat < b.toNat then true
    else if b.toNat < a.toNat then false
    else strLtB as bs

/-- Python `s[lo:hi]` for non-negative bounds. -/
def pySlice (l : List (List Char)) (lo hi : Nat) : List (List Char) :=
  (l.drop lo).take (hi - lo)

/-! ### `patterns/base.py`: severity, findings, and regex line rules -/

/-- The `Severity` enum of `patterns/base.py`. -/
inductive Severity where
  | critical
  | high
  | medium
  | low
deriving DecidableEq, Repr

/-- The `.value` payload of each `Severity` member. -/
def Severity.value : Severity → String
  | .critical => "critical"
  | .high => "high"
  | .medium => "medium"
  | .low => "low"

/-- The `Issue` dataclass of `patterns/base.py`.  `file` holds the path
string of the `Path` object stored in the Python record (paths order by
that string). -/
structure Issue where
  pattern_id : String
  severity : Severity
  axis : String
  file : List Char
  line : Nat
  column : Nat
  message : String
  code : Option (List Char)
deriving DecidableEq, Repr

/-- A `pathlib.Path` as the detector consumes it: the rendered path string
(used for `Issue.file` and for ordering), `path.name`, and the names of
`path.parents` in order. -/
structure PyPath where
  pathStr : List Char
  name : String
  parentNames : List String
deriving DecidableEq, Repr

/-- The `BasePattern.create_issue` helper: builds an `Issue` carrying the
pattern's own id, severity and axis. -/
def create_issue (id_ : String) (sev : Severity) (axis : String)
    (messageDefault : String) (file : PyPath) (line column : Nat)
    (code : Option (List Char)) : Issue :=
  ⟨id_, sev, axis, file.pathStr, line, column, messageDefault, code⟩

/-- A compiled regular expression, abstracted to its anchored-match
semantics: `m line pos` is `some e` when the engine finds a match of the
pattern starting exactly at offset `pos` of `line`, ending at offset `e`;
`none` when no match starts at `pos`.  (`re` semantics of the concrete
pattern objects are opaque to the detector core; only the stream of
non-overlapping matches produced by `finditer` is consumed.) -/
def Matcher : Type :=
  List Char → Nat → Option Nat

/-- Leftmost match of `m` in `line` starting at offset `pos` or later:
the scan of `re`'s `finditer` between two yields.  Returns the
`(start, end)` offsets.  `fuel` counts the positions still to try. -/
def findFrom (m : Matcher) (line : List Char) : Nat → Nat → Option (Nat × Nat)
  | _, 0 => none
  | pos, fuel + 1 =>
    match m line pos with
    | some e => some (pos, e)
    | none => findFrom m line (pos + 1) fuel

/-- Worker for `finditer`: yields non-overlapping matches left to right,
resuming after each match's end (one past it for an empty match), exactly
as `re.finditer` does. -/
def finditerAux (m : Matcher) (line : List Char) : Nat → Nat → List (Nat × Nat)
  | _, 0 => []
  | pos, fuel + 1 =>
    match findFrom m line pos (line.length + 1 - pos) with
    | none => []
    | some (s, e) =>
      (s, e) :: finditerAux m line (if e ≤ s then s + 1 else e) fuel

/-- Python `pattern.finditer(line)` as the list of `(start, end)` spans. -/
def finditer (m : Matcher) (line : List Char) : List (Nat × Nat) :=
  finditerAux m line 0 (line.length + 1)

/-- A `RegexPattern` rule: id, default severity/axis/message, and its
compiled pattern (`none` models `pattern = None`). -/
structure RegexRule where
  id : String
  severity : Severity
  axis : String
  message : String
  pattern : Option Matcher

/-- The `RegexPattern.check_line` method of `patterns/base.py`: one issue
per `finditer` match, at `column = match.start()`, carrying the stripped
line as the offending snippet. -/
def regexPattern_check_line (p : RegexRule) (line : List Char) (lineno : Nat)
    (file : PyPath) : List Issue :=
  match p.pattern with
  | none => []
  | some m =>
    (finditer m line).map fun span =>
      create_issue p.id p.severity p.axis p.message file lineno span.1
        (some (pyStrip line))

/-! ### `analyzers/ast_analyzer.py`: the syntax tree and the walker -/

/-- The node kinds the analyzer dispatches on (every other node kind takes
the default `generic_visit` path). -/
inductive NodeKind where
  | functionDef
  | asyncFunctionDef
  | classDef
  | exceptHandler
  | importFrom
  | importStmt
  | callExpr
  | attributeExpr
  | ifStmt
  | forStmt
  | whileStmt
  | withStmt
  | tryStmt
  | moduleRoot
  | otherNode
deriving DecidableEq, Repr

/-- A parsed Python AST node: kind, `lineno`/`col_offset` (0 models a node
with no location metadata, matching the `getattr(node, "lineno", 0)`
default), the called name when the node is a `Call` whose `func` is a bare
`ast.Name` (`funcName = some id`), and the child nodes in `generic_visit`
order. -/
inductive PyNode where
  | node (kind : NodeKind) (lineno colOffset : Nat) (funcName : Option String)
      (children : List PyNode)
deriving Repr

/-- Kind projection of a `PyNode`. -/
def PyNode.kind : PyNode → NodeKind
  | .node k _ _ _ _ => k

/-- The kinds routed through `_visit_nested_block` (depth tracking):
`If`, `For`, `While`, `With`, `Try`. -/
def nestedKinds : List NodeKind :=
  [.ifStmt, .forStmt, .whileStmt, .withStmt, .tryStmt]

/-- The kinds with a plain `visit_*` method (`_check_patterns` then
`generic_visit`). -/
def dispatchKinds : List NodeKind :=
  [.functionDef, .asyncFunctionDef, .classDef, .exceptHandler, .importFrom,
   .importStmt, .callExpr, .attributeExpr]

/-- A rule object as the detector sees it: `check_node` is present exactly
on tree-matching rules, `check_line` exactly on line-matching rules
(mirroring the `hasattr` capability probes). -/
structure PatternObj where
  id : String
  severity : Severity
  axis : String
  message : String
  node_types : List NodeKind
  check_node : Option (PyNode → PyPath → List (List Char) → List Issue)
  check_line : Option (List Char → Nat → PyPath → List Issue)

/-- The mutable state of one `ASTAnalyzer` run: accumulated issues and the
shared nesting-depth counter. -/
structure AnalyzerState where
  issues : List Issue
  nesting_depth : Nat
deriving Repr

/-- The built-in medium-severity finding appended by `_visit_nested_block`
when the depth counter exceeds 4 on entry. -/
def deepNestingIssue (file : PyPath) (lineno colOffset depth : Nat) : Issue :=
  ⟨"deep_nesting", Severity.medium, "style", file.pathStr, lineno, colOffset,
   "Code nested " ++ toString depth ++ " levels deep - consider refactoring",
   none⟩

/-- `ASTAnalyzer._check_patterns`: run every pattern that has `check_node`
and whose `node_types` is empty or mentions this node's kind; concatenate
the issues in pattern order. -/
def check_patterns_issues (ps : List PatternObj) (file : PyPath)
    (source_lines : List (List Char)) (n : PyNode) : List Issue :=
  ps.flatMap fun p =>
    match p.check_node with
    | some f =>
      if p.node_types = [] ∨ n.kind ∈ p.node_types then f n file source_lines
      else []
    | none => []

mutual

/-- One `visit` dispatch of `ASTAnalyzer`: nested-block kinds go through
`_visit_nested_block` (increment depth, emit the deep-nesting finding when
the new depth exceeds 4, run patterns, recurse, decrement depth); the
kinds with a dedicated `visit_*` run patterns then recurse; every other
kind just recurses (`generic_visit`). -/
def visitNode (ps : List PatternObj) (file : PyPath)
    (source_lines : List (List Char)) (st : AnalyzerState) :
    PyNode → AnalyzerState
  | .node k ln col fn cs =>
    if k ∈ nestedKinds then
      let d := st.nesting_depth + 1
      let withDeep := st.issues ++
        (if 4 < d then [deepNestingIssue file ln col d] else [])
      let withPat := withDeep ++
        check_patterns_issues ps file source_lines (.node k ln col fn cs)
      let st2 := visitList ps file source_lines ⟨withPat, d⟩ cs
      ⟨st2.issues, st2.nesting_depth - 1⟩
    else if k ∈ dispatchKinds then
      let withPat := st.issues ++
        check_patterns_issues ps file source_lines (.node k ln col fn cs)
      visitList ps file source_lines ⟨withPat, st.nesting_depth⟩ cs
    else
      visitList ps file source_lines st cs

/-- `generic_visit`: fold `visit` over the children in order. -/
def visitList (ps : List PatternObj) (file : PyPath)
    (source_lines : List (List Char)) (st : AnalyzerState) :
    List PyNode → AnalyzerState
  | [] => st
  | c :: cs => visitList ps file source_lines (visitNode ps file source_lines st c) cs

end

/-- `ASTAnalyzer(file, source, patterns).analyze(tree)`: run the visitor
from a fresh state and return the accumulated issues. -/
def analyzer_analyze (ps : List PatternObj) (file : PyPath)
    (source_lines : List (List Char)) (tree : PyNode) : List Issue :=
  (visitNode ps file source_lines ⟨[], 0⟩ tree).issues

/-! ### `patterns/noise.py`: the `DebugPrint` rule -/

/-- File base names where `print()` is expected (`CLI_FILE_PATTERNS`). -/
def CLI_FILE_PATTERNS : List String :=
  ["cli.py", "__main__.py", "main.py", "console.py", "commands.py"]

/-- Directory names where `print()` is expected (`CLI_DIR_PATTERNS`). -/
def CLI_DIR_PATTERNS : List String :=
  ["scripts", "bin", "cli", "commands"]

/-- CLI-framework names whose import suggests a CLI application
(`CLI_IMPORTS`). -/
def CLI_IMPORTS : List String :=
  ["click", "typer", "argparse", "fire", "rich"]

/-- Zero-based indices visited by the backward scan
`range(lineno - 1, max(lineno - 100, -1), -1)` of `_is_in_main_block`,
in visiting order (descending).  The scan touches at most 99 indices:
`lineno - 1` down to `max(lineno - 100, -1) + 1`. -/
def mainScanIdxs (lineno : Nat) : List Nat :=
  (List.range (min lineno 99)).map fun t => lineno - 1 - t

/-- Whether a stripped line matches the guard test of `_is_in_main_block`:
`line.startswith("if __name__") and "__main__" in line`. -/
def isGuardLine (stripped : List Char) : Bool :=
  startsWithChars stripped "if __name__".data &&
  containsChars stripped "__main__".data

/-- Whether a line stops the backward scan: the stripped text starts with
`def ` or `class ` and the raw line does not start with a space. -/
def isScanStopLine (raw stripped : List Char) : Bool :=
  (startsWithChars stripped "def ".data ||
   startsWithChars stripped "class ".data) &&
  !(startsWithChars raw " ".data)

/-- Body of the backward scan of `_is_in_main_block` over the visited
indices: an out-of-range index is skipped; a guard line returns `True`; a
stop line returns `False`; otherwise continue. -/
def mainScanLoop (source_lines : List (List Char)) : List Nat → Bool
  | [] => false
  | i :: rest =>
    if h : i < source_lines.length then
      if isGuardLine (pyStrip (source_lines.get ⟨i, h⟩)) then true
      else if isScanStopLine (source_lines.get ⟨i, h⟩)
          (pyStrip (source_lines.get ⟨i, h⟩)) then false
      else mainScanLoop source_lines rest
    else mainScanLoop source_lines rest

/-- `DebugPrint._is_in_main_block`: `lineno = 0` models the
`getattr(node, "lineno", 0)` default and returns `False`; otherwise scan
backwards up to 99 lines for the `__main__` guard. -/
def is_in_main_block (lineno : Nat) (source_lines : List (List Char)) : Bool :=
  if lineno = 0 then false
  else mainScanLoop source_lines (mainScanIdxs lineno)

/-- Default message of the `DebugPrint` rule. -/
def debugPrintMessage : String :=
  "Debug print statement - remove before production"

/-- `DebugPrint.check_node`: flag a `print()` call unless the file name,
a parent directory, a CLI-framework import in the source text, or an
enclosing `__main__` guard marks the context as CLI-legitimate. -/
def debugPrint_check_node (n : PyNode) (file : PyPath)
    (source_lines : List (List Char)) : List Issue :=
  match n with
  | .node k lineno col funcName _ =>
    if k ≠ NodeKind.callExpr then []
    else if funcName ≠ some "print" then []
    else if file.name ∈ CLI_FILE_PATTERNS then []
    else if file.parentNames.any (fun p => p ∈ CLI_DIR_PATTERNS) then []
    else if CLI_IMPORTS.any (fun ci =>
        containsChars (pyJoinNL source_lines) ("import " ++ ci).data ||
        containsChars (pyJoinNL source_lines) ("from " ++ ci).data) then []
    else if is_in_main_block lineno source_lines then []
    else
      let code :=
        if 0 < lineno ∧ lineno ≤ source_lines.length then
          pyStrip (source_lines.getD (lineno - 1) [])
        else "print(...)".data
      [create_issue "debug_print" Severity.medium "noise" debugPrintMessage
        file lineno col (some code)]

/-- The `DebugPrint` rule as a detector pattern object
(`node_types = (ast.Call,)`, tree-matching only). -/
def debugPrintPattern : PatternObj :=
  ⟨"debug_print", Severity.medium, "noise", debugPrintMessage,
   [NodeKind.callExpr], some debugPrint_check_node, none⟩

/-! ### `analyzers/duplicate_finder.py`: extraction and normalization -/

/-- The `FunctionInfo` dataclass of `duplicate_finder.py`. -/
structure FunctionInfo where
  name : String
  file : List Char
  line : Nat
  source : List Char
  normalized : List Char
deriving DecidableEq, Repr

/-- One function/async-function definition as `ast.walk` yields it to
`extract_functions`: its name, 1-based `lineno`, and `end_lineno`
(`none` models a missing attribute, `some 0` a falsy one). -/
structure FuncNode where
  name : String
  lineno : Nat
  end_lineno : Option Nat
deriving DecidableEq, Repr

/-- The per-line body of the `normalize_function` loop: strip the line,
and keep the stripped text unless it is empty, a `#` comment, or opens
with a triple-quote delimiter. -/
def normLine (line : List Char) : Option (List Char) :=
  if pyStrip line = [] then none
  else if startsWithChars (pyStrip line) "#".data then none
  else if startsWithChars (pyStrip line) "\x22\x22\x22".data ||
          startsWithChars (pyStrip line) "\x27\x27\x27".data then none
  else some (pyStrip line)

/-- `normalize_function`: strip each line, drop blank lines, `#` comment
lines and lines opening with a triple-quote delimiter, and rejoin with
newlines. -/
def normalize_function (source : List Char) : List Char :=
  pyJoinNL ((pySplitlines source).filterMap normLine)

/-- The Python truthiness test `node.end_lineno` guarding extraction. -/
def FuncNode.endTruthy (fn : FuncNode) : Bool :=
  match fn.end_lineno with
  | some e => e ≠ 0
  | none => false

/-- The `lines[node.lineno - 1 : node.end_lineno]` slice joined with
newlines: the raw source text of one function. -/
def funcSourceOf (lines : List (List Char)) (fn : FuncNode) : List Char :=
  pyJoinNL (pySlice lines (fn.lineno - 1) (fn.end_lineno.getD 0))

/-- `extract_functions` over the walked function-definition nodes of one
parsed file: slice the source, normalize, and keep the function exactly
when the normalized text is longer than 50 characters. -/
def extract_functions (file : List Char) (lines : List (List Char)) :
    List FuncNode → List FunctionInfo
  | [] => []
  | fn :: rest =>
    (if fn.endTruthy then
      let src := funcSourceOf lines fn
      let normalized := normalize_function src
      if 50 < normalized.length then
        [⟨fn.name, file, fn.lineno, src, normalized⟩]
      else []
     else []) ++ extract_functions file lines rest

/-! ### `difflib.SequenceMatcher` (no junk, `autojunk` inactive)

`find_duplicates` computes `SequenceMatcher(None, a, b).ratio()` on
normalized texts.  The texts compared are short (the `autojunk`
popularity heuristic only activates at `len(b) >= 200`, and no junk
predicate is supplied), so the relevant algorithm is the plain
longest-matching-block recursion, embedded below.  `j2len` dictionaries
become total functions that default to `0`; the key `-1` that Python's
`j2len.get(j - 1, 0)` can probe is never populated, so `j = 0` reads 0. -/

/-- `b2j`: the ascending list of positions of a character in `b`. -/
def b2j (b : List Char) (c : Char) : List Nat :=
  (List.range b.length).filter fun j => b.getD j ' ' == c

/-- The inner loop of `find_longest_match` over the candidate positions
`js` of `a[i]` in `b`: positions below `blo` are skipped, a position at or
beyond `bhi` breaks, and each kept position extends the run ending at
`(i, j)`, updating the best block when the run beats it.  Returns the new
row dictionary and the updated `(besti, bestj, bestsize)`. -/
def flmInner (blo bhi i : Nat) (j2len : Nat → Nat) :
    List Nat → (Nat → Nat) → (Nat × Nat × Nat) → ((Nat → Nat) × (Nat × Nat × Nat))
  | [], newj2len, best => (newj2len, best)
  | j :: js, newj2len, best =>
    if j < blo then flmInner blo bhi i j2len js newj2len best
    else if bhi ≤ j then (newj2len, best)
    else
      let k := (if j = 0 then 0 else j2len (j - 1)) + 1
      let newj2len' := fun j' => if j' = j then k else newj2len j'
      let best' := if best.2.2 < k then (i + 1 - k, j + 1 - k, k) else best
      flmInner blo bhi i j2len js newj2len' best'

/-- The outer loop of `find_longest_match` over the rows
`i = alo, ..., ahi - 1`, threading the row dictionary and the best
block. -/
def flmOuter (a b : List Char) (blo bhi : Nat) :
    List Nat → (Nat → Nat) → (Nat × Nat × Nat) → (Nat × Nat × Nat)
  | [], _, best => best
  | i :: is, j2len, best =>
    let step := flmInner blo bhi i j2len (b2j b (a.getD i ' ')) (fun _ => 0) best
    flmOuter a b blo bhi is step.1 step.2

/-- The left extension loop of `find_longest_match` (the junk predicate is
constantly false here, so only the first extension pair can fire). -/
def flmExtendLeft (a b : List Char) (alo blo : Nat) :
    Nat → (Nat × Nat × Nat) → (Nat × Nat × Nat)
  | 0, best => best
  | fuel + 1, (bi, bj, bs) =>
    if alo < bi ∧ blo < bj ∧ a.getD (bi - 1) ' ' == b.getD (bj - 1) ' ' then
      flmExtendLeft a b alo blo fuel (bi - 1, bj - 1, bs + 1)
    else (bi, bj, bs)

/-- The right extension loop of `find_longest_match`. -/
def flmExtendRight (a b : List Char) (ahi bhi : Nat) :
    Nat → (Nat × Nat × Nat) → (Nat × Nat × Nat)
  | 0, best => best
  | fuel + 1, (bi, bj, bs) =>
    if bi + bs < ahi ∧ bj + bs < bhi ∧
        a.getD (bi + bs) ' ' == b.getD (bj + bs) ' ' then
      flmExtendRight a b ahi bhi fuel (bi, bj, bs + 1)
    else (bi, bj, bs)

/-- `SequenceMatcher.find_longest_match(alo, ahi, blo, bhi)` on the two
sequences, with no junk: scan all rows, then run both extension loops. -/
def find_longest_match (a b : List Char) (alo ahi blo bhi : Nat) :
    Nat × Nat × Nat :=
  let best := flmOuter a b blo bhi (List.range' alo (ahi - alo)) (fun _ => 0)
    (alo, blo, 0)
  let best' := flmExtendLeft a b alo blo best.1 best
  flmExtendRight a b ahi bhi (ahi - (best'.1 + best'.2.2)) best'

/-- The recursive block collection of `get_matching_blocks`: the longest
block of a region plus the blocks of the two flanking regions.  The block
list order differs from CPython's queue order, but the set of blocks (and
hence the size sum consumed by `ratio`) is the same; `fuel` dominates the
recursion depth, which shrinks by at least one region cell per level. -/
def matchingBlocksRec (a b : List Char) :
    Nat → Nat → Nat → Nat → Nat → List (Nat × Nat × Nat)
  | 0, _, _, _, _ => []
  | fuel + 1, alo, ahi, blo, bhi =>
    let x := find_longest_match a b alo ahi blo bhi
    let i := x.1
    let j := x.2.1
    let k := x.2.2
    if k = 0 then []
    else
      (if alo < i ∧ blo < j then matchingBlocksRec a b fuel alo i blo j else []) ++
      [x] ++
      (if i + k < ahi ∧ j + k < bhi then matchingBlocksRec a b fuel (i + k) ahi (j + k) bhi
       else [])

/-- `get_matching_blocks` restricted to what `ratio` consumes.  (CPython
additionally sorts the blocks, merges adjacent ones and appends a zero
terminator; none of that changes the sum of block sizes.) -/
def get_matching_blocks (a b : List Char) : List (Nat × Nat × Nat) :=
  matchingBlocksRec a b (a.length + b.length + 1) 0 a.length 0 b.length

/-- Matched-element count `M` of `ratio`: the sum of block sizes. -/
def matchesSum (a b : List Char) : Nat :=
  ((get_matching_blocks a b).map fun t => t.2.2).sum

/-- `SequenceMatcher.ratio()`: `2.0 * M / T`, and `1.0` when both
sequences are empty (`difflib._calculate_ratio`). -/
def ratioOf (a b : List Char) : ℚ :=
  if a.length + b.length ≠ 0 then
    (2 * matchesSum a b : ℚ) / (a.length + b.length : ℚ)
  else 1

/-! ### `analyzers/import_validator.py` -/

/-- The fallback standard-library module set written out in the source
(used when `sys.stdlib_module_names` is unavailable; the theorems hold for
any stdlib set, and concrete instances use this one). -/
def STDLIB_MODULES_FALLBACK : List String :=
  ["abc", "argparse", "ast", "asyncio", "base64", "collections",
   "configparser", "contextlib", "copy", "csv", "dataclasses", "datetime",
   "decimal", "difflib", "email", "enum", "functools", "glob", "hashlib",
   "html", "http", "importlib", "inspect", "io", "itertools", "json",
   "logging", "math", "multiprocessing", "operator", "os", "pathlib",
   "pickle", "platform", "pprint", "re", "shutil", "signal", "socket",
   "sqlite3", "string", "subprocess", "sys", "tempfile", "textwrap",
   "threading", "time", "traceback", "types", "typing", "unittest",
   "urllib", "uuid", "warnings", "weakref", "xml", "zipfile"]

/-- Outcome of the `importlib.util.find_spec` probe for one module name:
a spec was found, no spec was found, or the probe raised one of the
exception classes the code catches (`ModuleNotFoundError`, `ValueError`,
`ImportError`, `AttributeError`). -/
inductive ProbeResult where
  | found
  | notFound
  | raises
deriving DecidableEq, Repr

/-- Python `module_name.split(".")[0]`: the prefix before the first dot
(the whole string when it has no dot). -/
def baseModuleOf (module_name : String) : String :=
  String.mk (module_name.data.takeWhile fun c => c ≠ '.')

/-- `module_exists`: stdlib fast path on the base component, then the
`find_spec` probe with every caught exception collapsed to `False`. -/
def module_exists (stdlib : List String) (probe : String → ProbeResult)
    (module_name : String) : Bool :=
  if baseModuleOf module_name ∈ stdlib then true
  else
    match probe module_name with
    | .found => true
    | .notFound => false
    | .raises => false

/-- Lookup in a Python `dict` literal built from an association list:
later duplicate keys overwrite earlier ones, so the last binding wins. -/
def dictGet {K V : Type} [DecidableEq K] (table : List (K × V)) (k : K) :
    Option V :=
  (table.reverse.find? fun e => e.1 = k).map fun e => e.2

/-- The `KNOWN_HALLUCINATIONS` table: `(module, name)` keys mapped to an
error message, or to `None` (modelled `none`) for entries recording that
the superficially suspicious import is actually valid. -/
def KNOWN_HALLUCINATIONS : List ((String × Option String) × Option String) :=
  [(("requests", some "JSONResponse"),
    some "JSONResponse is from starlette.responses or fastapi.responses, not requests"),
   (("requests", some "Response"), none),
   (("flask", some "Query"), some "Query is from fastapi, not flask"),
   (("flask", some "Depends"), some "Depends is from fastapi, not flask"),
   (("flask", some "HTTPException"), none),
   (("django", some "FastAPI"), some "FastAPI is its own package, not part of django"),
   (("django", some "APIRouter"), some "APIRouter is from fastapi, not django"),
   (("typing", some "Required"), some "Required is from typing_extensions (Python <3.11)"),
   (("typing", some "NotRequired"), some "NotRequired is from typing_extensions (Python <3.11)"),
   (("typing", some "Self"), some "Self is from typing_extensions (Python <3.11)"),
   (("typing", some "TypeGuard"), some "TypeGuard is in typing (3.10+) or typing_extensions"),
   (("typing", some "ParamSpec"), none),
   (("collections", some "dataclass"), some "dataclass is from dataclasses, not collections"),
   (("typing", some "dataclass"), some "dataclass is from dataclasses, not typing"),
   (("attrs", some "dataclass"), some "dataclass is from dataclasses; attrs uses @attr.s or @define"),
   (("dataclasses", some "BaseModel"), some "BaseModel is from pydantic, not dataclasses"),
   (("typing", some "BaseModel"), some "BaseModel is from pydantic, not typing"),
   (("dataclasses", some "Field"), none),
   (("asyncio", some "aiohttp"), some "aiohttp is its own package, not part of asyncio"),
   (("asyncio", some "httpx"), some "httpx is its own package, not part of asyncio"),
   (("async", some "await"), some "async/await are keywords, not importable"),
   (("os", some "makedirectory"), some "Use os.makedirs() not os.makedirectory()"),
   (("os", some "makedir"), some "Use os.mkdir() or os.makedirs(), not os.makedir()"),
   (("os.path", some "Path"), some "Path is from pathlib, not os.path"),
   (("pathlib", some "mkdirs"), some "Use Path.mkdir(parents=True), not mkdirs()"),
   (("json", some "JSONEncoder"), none),
   (("json", some "parse"), some "Use json.loads() not json.parse() (JavaScript pattern)"),
   (("json", some "stringify"), some "Use json.dumps() not json.stringify() (JavaScript pattern)"),
   (("utils", none), some "Generic \x27utils\x27 is not a standard package - likely meant local module"),
   (("helpers", none), some "Generic \x27helpers\x27 is not a standard package - likely meant local module"),
   (("common", none), some "Generic \x27common\x27 is not a standard package - likely meant local module"),
   (("unittest", some "fixture"), some "fixture is from pytest, not unittest"),
   (("unittest", some "mark"), some "mark is from pytest, not unittest"),
   (("pytest", some "TestCase"), some "TestCase is from unittest, not pytest"),
   (("urllib", some "get"), some "Use urllib.request.urlopen() or requests.get(), not urllib.get()"),
   (("urllib", some "post"), some "Use urllib.request.urlopen() or requests.post(), not urllib.post()"),
   (("http", some "get"), some "Use http.client or requests for HTTP requests"),
   (("logging", some "log"), none),
   (("logger", none), some "\x27logger\x27 is not a module - use \x27logging\x27"),
   (("sqlalchemy", some "Model"), some "Model is from flask_sqlalchemy, SQLAlchemy uses declarative_base()"),
   (("sqlalchemy", some "db"), some "db is typically a Flask-SQLAlchemy instance, not from sqlalchemy")]

/-- `check_known_hallucination(module, name)`: the exact `(module, name)`
entry when its value is a message (a stored `None` value means "valid" and
falls through, like the Python `is not None` test on `.get`), then the
`(module, None)` wildcard entry, then `None`. -/
def check_known_hallucination (module : String) (name : Option String) :
    Option String :=
  match dictGet KNOWN_HALLUCINATIONS (module, name) with
  | some (some msg) => some msg
  | _ =>
    match dictGet KNOWN_HALLUCINATIONS (module, none) with
    | some (some msg) => some msg
    | _ => none

/-- `validate_import(module_name, name)`: a truthy known-hallucination
message is returned first; otherwise the base module is probed and a
missing base module is reported; otherwise the import is valid. -/
def validate_import (stdlib : List String) (probe : String → ProbeResult)
    (module_name : String) (name : Option String) : Option String :=
  let hallucinated :=
    match name with
    | some n =>
      if n ≠ "" then
        match check_known_hallucination module_name (some n) with
        | some msg => if msg ≠ "" then some msg else none
        | none => none
      else none
    | none => none
  match hallucinated with
  | some msg => some msg
  | none =>
    if ¬ module_exists stdlib probe (baseModuleOf module_name) then
      some ("Module \x27" ++ module_name ++ "\x27 does not exist")
    else none

/-- The `HALLUCINATED_METHODS` table: member name mapped to
`(correct_method, context_hint)`; a `None` correct method means the name
is valid.  Duplicate keys of the Python dict literal are kept in source
order (the later binding wins under `dictGet`). -/
def HALLUCINATED_METHODS : List (String × (Option String × Option String)) :=
  [("titlecase", (some "title", some "str.title()")),
   ("uppercase", (some "upper", some "str.upper()")),
   ("lowercase", (some "lower", some "str.lower()")),
   ("trimStart", (some "lstrip", some "str.lstrip() - JavaScript pattern")),
   ("trimEnd", (some "rstrip", some "str.rstrip() - JavaScript pattern")),
   ("trim", (some "strip", some "str.strip() - JavaScript pattern")),
   ("charAt", (some "[]", some "Use indexing s[i] not s.charAt(i) - JavaScript pattern")),
   ("indexOf", (some "find", some "str.find() or \x27in\x27 operator - JavaScript pattern")),
   ("lastIndexOf", (some "rfind", some "str.rfind() - JavaScript pattern")),
   ("substring", (some "[]", some "Use slicing s[start:end] - JavaScript pattern")),
   ("substr", (some "[]", some "Use slicing s[start:start+length] - JavaScript pattern")),
   ("includes", (some "in", some "Use \x27in\x27 operator - JavaScript pattern")),
   ("repeat", (some "*", some "Use s * n for repetition - JavaScript pattern")),
   ("padStart", (some "rjust", some "str.rjust() or str.zfill() - JavaScript pattern")),
   ("padEnd", (some "ljust", some "str.ljust() - JavaScript pattern")),
   ("toUpperCase", (some "upper", some "str.upper() - JavaScript pattern")),
   ("toLowerCase", (some "lower", some "str.lower() - JavaScript pattern")),
   ("toString", (some "str", some "Use str() builtin - JavaScript pattern")),
   ("push", (some "append", some "list.append() - JavaScript pattern")),
   ("unshift", (some "insert", some "list.insert(0, x) - JavaScript pattern")),
   ("shift", (some "pop", some "list.pop(0) - JavaScript pattern")),
   ("splice", (some "[]", some "Use slicing/del for splice - JavaScript pattern")),
   ("slice", (some "[]", some "Use slicing list[start:end] - JavaScript pattern")),
   ("concat", (some "+", some "Use + or extend() - JavaScript pattern")),
   ("forEach", (some "for", some "Use for loop - JavaScript pattern")),
   ("map", (some "list comprehension", some "Use [f(x) for x in list] or map()")),
   ("filter", (some "list comprehension", some "Use [x for x in list if cond] or filter()")),
   ("reduce", (some "functools.reduce", some "Use functools.reduce()")),
   ("find", (some "next", some "Use next(x for x in list if cond) or list comprehension")),
   ("findIndex", (some "next", some "Use next(i for i,x in enumerate(list) if cond)")),
   ("some", (some "any", some "Use any(cond for x in list)")),
   ("every", (some "all", some "Use all(cond for x in list)")),
   ("flat", (some "itertools.chain", some "Use itertools.chain.from_iterable()")),
   ("flatMap", (some "itertools.chain", some "Use chain.from_iterable(f(x) for x in list)")),
   ("length", (some "len", some "Use len(list) not list.length - JavaScript pattern")),
   ("size", (some "len", some "Use len(obj) not obj.size()")),
   ("hasOwnProperty", (some "in", some "Use \x27key in dict\x27 - JavaScript pattern")),
   ("keys", (none, none)),
   ("values", (none, none)),
   ("entries", (some "items", some "dict.items() - JavaScript pattern")),
   ("assign", (some "update", some "dict.update() or \x7b**d1, **d2\x7d - JavaScript pattern")),
   ("freeze", (none, some "Python dicts are mutable; use types.MappingProxyType")),
   ("typeof", (some "type", some "Use type() or isinstance() - JavaScript pattern")),
   ("instanceof", (some "isinstance", some "Use isinstance() - JavaScript pattern")),
   ("equals", (some "==", some "Use == for equality - Java pattern")),
   ("equalsIgnoreCase", (some "lower", some "Use s1.lower() == s2.lower() - Java pattern")),
   ("compareTo", (some "<>", some "Use comparison operators - Java pattern")),
   ("println", (some "print", some "Use print() - Java pattern")),
   ("printf", (some "print", some "Use print() or f-string - Java pattern")),
   ("charAt", (some "[]", some "Use indexing s[i] - Java/JavaScript pattern")),
   ("getClass", (some "type", some "Use type() or __class__ - Java pattern")),
   ("hashCode", (some "hash", some "Use hash() builtin - Java pattern")),
   ("isEmpty", (some "not", some "Use \x27not obj\x27 or \x27len(obj) == 0\x27 - Java pattern")),
   ("contains", (some "in", some "Use \x27in\x27 operator - Java pattern")),
   ("startsWith", (some "startswith", some "Use str.startswith() - Java pattern")),
   ("endsWith", (some "endswith", some "Use str.endswith() - Java pattern")),
   ("toCharArray", (some "list", some "Use list(s) - Java pattern")),
   ("getBytes", (some "encode", some "Use str.encode() - Java pattern")),
   ("each", (some "for", some "Use for loop - Ruby pattern")),
   ("each_with_index", (some "enumerate", some "Use enumerate() - Ruby pattern")),
   ("collect", (some "list comprehension", some "Use [f(x) for x in list] - Ruby pattern")),
   ("select", (some "list comprehension", some "Use [x for x in list if cond] - Ruby pattern")),
   ("reject", (some "list comprehension", some "Use [x for x in list if not cond] - Ruby pattern")),
   ("detect", (some "next", some "Use next(x for x in list if cond) - Ruby pattern")),
   ("inject", (some "functools.reduce", some "Use functools.reduce() - Ruby pattern")),
   ("first", (some "[0]", some "Use [0] indexing - Ruby pattern")),
   ("last", (some "[-1]", some "Use [-1] indexing - Ruby pattern")),
   ("chomp", (some "strip", some "Use str.strip() - Ruby pattern")),
   ("chop", (some "[:-1]", some "Use slicing s[:-1] - Ruby pattern")),
   ("gsub", (some "replace", some "Use str.replace() or re.sub() - Ruby pattern")),
   ("sub", (some "replace", some "Use str.replace() or re.sub() - Ruby pattern")),
   ("split", (none, none)),
   ("join", (none, none)),
   ("reverse", (none, none)),
   ("upcase", (some "upper", some "Use str.upper() - Ruby pattern")),
   ("downcase", (some "lower", some "Use str.lower() - Ruby pattern")),
   ("capitalize", (none, none)),
   ("empty?", (some "not", some "Use \x27not obj\x27 or \x27len(obj) == 0\x27 - Ruby pattern")),
   ("nil?", (some "is None", some "Use \x27is None\x27 - Ruby pattern")),
   ("include?", (some "in", some "Use \x27in\x27 operator - Ruby pattern")),
   ("present?", (some "bool", some "Use bool(obj) or \x27if obj:\x27 - Ruby/Rails pattern")),
   ("blank?", (some "not", some "Use \x27not obj\x27 - Ruby/Rails pattern")),
   ("Println", (some "print", some "Use print() - Go fmt pattern")),
   ("Printf", (some "print", some "Use print() or f-string - Go fmt pattern")),
   ("Sprintf", (some "format", some "Use f-string or str.format() - Go fmt pattern")),
   ("Error", (some "Exception", some "Use raise Exception() - Go pattern")),
   ("Errorf", (some "Exception", some "Use raise Exception(f\x27...\x27) - Go pattern")),
   ("make", (none, some "Use [] for list, \x7b\x7d for dict - Go pattern")),
   ("append", (none, none)),
   ("len", (none, none)),
   ("cap", (none, some "Python lists grow dynamically - Go pattern")),
   ("Length", (some "len", some "Use len(obj) - C# pattern")),
   ("Count", (some "len", some "Use len(obj) - C# pattern")),
   ("Add", (some "append", some "Use list.append() - C# pattern")),
   ("Remove", (some "remove", some "Use list.remove() - C# pattern")),
   ("Contains", (some "in", some "Use \x27in\x27 operator - C# pattern")),
   ("IndexOf", (some "index", some "Use list.index() or str.find() - C# pattern")),
   ("ToLower", (some "lower", some "Use str.lower() - C# pattern")),
   ("ToUpper", (some "upper", some "Use str.upper() - C# pattern")),
   ("Trim", (some "strip", some "Use str.strip() - C# pattern")),
   ("Split", (some "split", some "Use str.split() - C# pattern")),
   ("Join", (some "join", some "Use str.join() or \x27\x27.join() - C# pattern")),
   ("Replace", (some "replace", some "Use str.replace() - C# pattern")),
   ("Substring", (some "[]", some "Use slicing s[start:end] - C# pattern")),
   ("StartsWith", (some "startswith", some "Use str.startswith() - C# pattern")),
   ("EndsWith", (some "endswith", some "Use str.endswith() - C# pattern")),
   ("WriteLine", (some "print", some "Use print() - C# pattern")),
   ("ReadLine", (some "input", some "Use input() - C# pattern")),
   ("Parse", (none, some "Use int(), float(), etc. - C# pattern")),
   ("TryParse", (none, some "Use try/except with int(), float() - C# pattern")),
   ("ToString", (some "str", some "Use str() builtin - C# pattern")),
   ("echo", (some "print", some "Use print() - PHP pattern")),
   ("var_dump", (some "print", some "Use print() or pprint - PHP pattern")),
   ("print_r", (some "print", some "Use print() or pprint - PHP pattern")),
   ("isset", (some "is not None", some "Use \x27is not None\x27 or \x27in\x27 - PHP pattern")),
   ("unset", (some "del", some "Use del statement - PHP pattern")),
   ("array_push", (some "append", some "Use list.append() - PHP pattern")),
   ("array_pop", (some "pop", some "Use list.pop() - PHP pattern")),
   ("array_merge", (some "+", some "Use + or extend() - PHP pattern")),
   ("array_keys", (some "keys", some "Use dict.keys() - PHP pattern")),
   ("array_values", (some "values", some "Use dict.values() - PHP pattern")),
   ("count", (some "len", some "Use len() - PHP pattern")),
   ("strlen", (some "len", some "Use len() - PHP pattern")),
   ("strpos", (some "find", some "Use str.find() - PHP pattern")),
   ("str_replace", (some "replace", some "Use str.replace() - PHP pattern")),
   ("explode", (some "split", some "Use str.split() - PHP pattern")),
   ("implode", (some "join", some "Use str.join() - PHP pattern")),
   ("strtolower", (some "lower", some "Use str.lower() - PHP pattern")),
   ("strtoupper", (some "upper", some "Use str.upper() - PHP pattern")),
   ("trim", (some "strip", some "Use str.strip() - PHP pattern")),
   ("substr", (some "[]", some "Use slicing s[start:end] - PHP pattern")),
   ("preg_match", (some "re.search", some "Use re.search() - PHP pattern")),
   ("preg_replace", (some "re.sub", some "Use re.sub() - PHP pattern")),
   ("file_get_contents", (some "open", some "Use open().read() - PHP pattern")),
   ("file_put_contents", (some "open", some "Use open().write() - PHP pattern")),
   ("json_encode", (some "json.dumps", some "Use json.dumps() - PHP pattern")),
   ("json_decode", (some "json.loads", some "Use json.loads() - PHP pattern")),
   ("len", (none, none)),
   ("print", (none, none)),
   ("sorted", (none, none)),
   ("reversed", (none, none))]

/-- `check_hallucinated_method(method_name)`: a name absent from the table
is valid; a present name with a `None` correct method is valid; otherwise
the error message cites the name and the table's context hint.  (The
f-string renders a `None` hint as the text `None`; no such entry exists.) -/
def check_hallucinated_method (method_name : String) : Option String :=
  match dictGet HALLUCINATED_METHODS method_name with
  | none => none
  | some (correct, hint) =>
    match correct with
    | none => none
    | some _ =>
      some ("\x27" ++ method_name ++ "\x27 is not a Python method. " ++
        (match hint with
         | some h => h
         | none => "None"))

/-! ### `detector.py`: the orchestrator -/

/-- `SEVERITY_ORDER.get(s, 0)`: rank of a severity name, defaulting to 0
for unrecognised names. -/
def severity_order_get (s : String) : Nat :=
  if s = "low" then 0
  else if s = "medium" then 1
  else if s = "high" then 2
  else if s = "critical" then 3
  else 0

/-- One candidate file as the scan sees it after the external file system:
its path, and `some (lines, tree)` when reading, decoding and parsing all
succeeded (`none` models an `OSError`/`UnicodeDecodeError`/`SyntaxError`,
each of which makes `_scan_file_with_content` return no issues and no
content). -/
structure SrcFile where
  path : PyPath
  parsed : Option (List (List Char) × PyNode)

/-- `Detector._scan_file_with_content` for one file: AST analyzer issues,
then line-pattern issues (pattern-major order, lines numbered from 1),
then the guarded `unused_import` and `dead_code` passes; also returns the
content (its lines) for the cross-file phase. -/
def scan_file_with_content (patterns : List PatternObj)
    (disabled : List String)
    (fUnused fDead : PyPath → List (List Char) → List Issue)
    (f : SrcFile) : List Issue × Option (List (List Char)) :=
  match f.parsed with
  | none => ([], none)
  | some (lines, tree) =>
    let astIssues := analyzer_analyze patterns f.path lines tree
    let lineIssues := patterns.flatMap fun p =>
      match p.check_line with
      | some g => lines.enum.flatMap fun e => g e.2 (e.1 + 1) f.path
      | none => []
    let unusedIssues :=
      if "unused_import" ∉ disabled then fUnused f.path lines else []
    let deadIssues :=
      if "dead_code" ∉ disabled then fDead f.path lines else []
    (astIssues ++ lineIssues ++ unusedIssues ++ deadIssues, some lines)

/-- The comparison the final `issues.sort` establishes between adjacent
results: the Python key tuple
`(-SEVERITY_ORDER.get(sev), file, line)` compared lexicographically
(severity descending, then file string ascending, then line ascending). -/
def issueLe (x y : Issue) : Prop :=
  severity_order_get y.severity.value < severity_order_get x.severity.value ∨
  (severity_order_get x.severity.value = severity_order_get y.severity.value ∧
    (strLtB x.file y.file = true ∨ (x.file = y.file ∧ x.line ≤ y.line)))

instance : DecidableRel issueLe := fun x y => by
  unfold issueLe
  infer_instance

/-- `Detector.scan` over already-expanded candidate files.  Path discovery
(`rglob`, `_should_scan`) is the external traversal collaborator; the
file-level analyzers and the cross-file duplicate pass live in repository
modules outside the embedded sources and are supplied as functions.
The final sort models the stable `list.sort` by key with a stable
insertion sort; for a total preorder every stable sort produces the same
list. -/
def detector_scan (allPatterns : List PatternObj)
    (fUnused fDead : PyPath → List (List Char) → List Issue)
    (fCross : List (PyPath × List (List Char)) → List Issue)
    (disabled : List String) (min_severity : String)
    (files : List SrcFile) : List Issue :=
  let patterns := allPatterns.filter fun p => p.id ∉ disabled
  let perFile := files.map fun f =>
    (scan_file_with_content patterns disabled fUnused fDead f, f.path)
  let issues := perFile.flatMap fun r => r.1.1
  let contents := perFile.filterMap fun r =>
    match r.1.2 with
    | some lines => some (r.2, lines)
    | none => none
  let crossIssues :=
    if "duplicate_code" ∉ disabled ∧ 1 < contents.length then fCross contents
    else []
  let minLvl := severity_order_get min_severity
  let kept := (issues ++ crossIssues).filter fun i =>
    minLvl ≤ severity_order_get i.severity.value
  kept.insertionSort issueLe

/-! ### Order properties of the output comparison -/

theorem strLtB_self (l : List Char) : strLtB l l = false := by
  induction l with
  | nil => rfl
  | cons c cs ih => simp [strLtB, ih]

theorem strLtB_trans : ∀ a b c : List Char,
    strLtB a b = true → strLtB b c = true → strLtB a c = true := by
  intro a
  induction a with
  | nil =>
    intro b c hab hbc
    cases b with
    | nil => simp [strLtB] at hab
    | cons y ys =>
      cases c with
      | nil => simp [strLtB] at hbc
      | cons z zs => simp [strLtB]
  | cons x xs ih =>
    intro b c hab hbc
    cases b with
    | nil => simp [strLtB] at hab
    | cons y ys =>
      cases c with
      | nil => simp [strLtB] at hbc
      | cons z zs =>
        simp only [strLtB] at hab hbc ⊢
        split_ifs at hab hbc ⊢ <;> first
          | rfl
          | omega
          | exact ih ys zs hab hbc

theorem char_toNat_inj {a b : Char} (h : a.toNat = b.toNat) : a = b :=
  Char.ext (UInt32.ext h)

theorem strLtB_connex : ∀ a b : List Char,
    strLtB a b = false → strLtB b a = false → a = b := by
  intro a
  induction a with
  | nil =>
    intro b hab _
    cases b with
    | nil => rfl
    | cons y ys => simp [strLtB] at hab
  | cons x xs ih =>
    intro b hab hba
    cases b with
    | nil => simp [strLtB] at hba
    | cons y ys =>
      simp only [strLtB] at hab hba
      split_ifs at hab hba <;> try omega
      have hxy : x = y := char_toNat_inj (by omega)
      have : xs = ys := ih ys hab hba
      rw [hxy, this]

instance : IsTrans Issue issueLe := by
  constructor
  intro a b c hab hbc
  unfold issueLe at *
  rcases hab with h1 | ⟨he1, hs1⟩
  · rcases hbc with h2 | ⟨he2, _⟩
    · exact Or.inl (by omega)
    · exact Or.inl (by omega)
  · rcases hbc with h2 | ⟨he2, hs2⟩
    · exact Or.inl (by omega)
    · refine Or.inr ⟨by omega, ?_⟩
      rcases hs1 with hf1 | ⟨hfe1, hl1⟩
      · rcases hs2 with hf2 | ⟨hfe2, _⟩
        · exact Or.inl (strLtB_trans _ _ _ hf1 hf2)
        · exact Or.inl (hfe2 ▸ hf1)
      · rcases hs2 with hf2 | ⟨hfe2, hl2⟩
        · exact Or.inl (hfe1 ▸ hf2)
        · exact Or.inr ⟨hfe1.trans hfe2, hl1.trans hl2⟩

instance : IsTotal Issue issueLe := by
  constructor
  intro a b
  unfold issueLe
  rcases Nat.lt_trichotomy (severity_order_get a.severity.value)
      (severity_order_get b.severity.value) with h | h | h
  · exact Or.inr (Or.inl h)
  · rcases hab : strLtB a.file b.file with _ | _
    · rcases hba : strLtB b.file a.file with _ | _
      · have hfe : a.file = b.file := strLtB_connex _ _ hab hba
        rcases Nat.le_total a.line b.line with hl | hl
        · exact Or.inl (Or.inr ⟨h, Or.inr ⟨hfe, hl⟩⟩)
        · exact Or.inr (Or.inr ⟨h.symm, Or.inr ⟨hfe.symm, hl⟩⟩)
      · exact Or.inr (Or.inr ⟨h.symm, Or.inl rfl⟩)
    · exact Or.inl (Or.inr ⟨h, Or.inl rfl⟩)
  · exact Or.inl (Or.inl h)

/-- C4.  Every list returned by `Detector.scan` is sorted: no two adjacent
findings violate the order (severity descending with critical first, then
file ascending, then line ascending), and — the model being a pure
function of its input — the order is deterministic for identical input. -/
theorem detector_scan_sorted (allPatterns : List PatternObj)
    (fUnused fDead : PyPath → List (List Char) → List Issue)
    (fCross : List (PyPath × List (List Char)) → List Issue)
    (disabled : List String) (min_severity : String) (files : List SrcFile) :
    List.Chain' issueLe
      (detector_scan allPatterns fUnused fDead fCross disabled min_severity files) ∧
    detector_scan allPatterns fUnused fDead fCross disabled min_severity files =
      detector_scan allPatterns fUnused fDead fCross disabled min_severity files := by
  constructor
  · unfold detector_scan
    exact List.Pairwise.chain' (List.sorted_insertionSort issueLe _)
  · rfl

/-! ### Dictionary lookup lemmas -/

theorem dictGet_eq_none_of_not_mem_keys {K V : Type} [DecidableEq K]
    (t : List (K × V)) (k : K) (h : k ∉ t.map Prod.fst) :
    dictGet t k = none := by
  unfold dictGet
  rw [Option.map_eq_none', List.find?_eq_none]
  intro e he
  simp only [decide_eq_true_eq]
  intro hk
  exact h (hk ▸ List.mem_map_of_mem Prod.fst (List.mem_reverse.mp he))

theorem dictGet_mem {K V : Type} [DecidableEq K]
    {t : List (K × V)} {k : K} {v : V} (h : dictGet t k = some v) :
    (k, v) ∈ t := by
  unfold dictGet at h
  rw [Option.map_eq_some'] at h
  obtain ⟨e, he, hv⟩ := h
  have hmem : e ∈ t := List.mem_reverse.mp (List.mem_of_find?_eq_some he)
  have hk : e.1 = k := by
    have := List.find?_some he
    simpa using this
  have : e = (k, v) := by
    cases e
    simp_all
  exact this ▸ hmem

/-! ### Claim C7: `check_hallucinated_method` -/

/-- Decidable statement that `msg` is the flagging message for `name` and
embeds the table's replacement hint for `name`: the table maps `name` to a
present correct method and a present hint, and `msg` is exactly the
flagging text ending in that hint. -/
def hint_in_message (name msg : String) : Bool :=
  match dictGet HALLUCINATED_METHODS name with
  | some (some _, some h) =>
    msg == "\x27" ++ name ++ "\x27 is not a Python method. " ++ h
  | _ => false

/-- Every flaggable entry of the table carries a hint string. -/
theorem hallucinated_methods_hints_present :
    HALLUCINATED_METHODS.all
      (fun e => e.2.1.isNone || e.2.2.isSome) = true := by
  decide

/-- C7.  `check_hallucinated_method` is a total function of the member
name (hence deterministic: equal names give equal classifications):
every name absent from the `HALLUCINATED_METHODS` table is classified
valid (`none`), and whenever a name is flagged, the returned message is
the flagging text carrying the table's suggested replacement hint for
that name. -/
theorem check_hallucinated_method_spec (name : String) :
    (name ∉ HALLUCINATED_METHODS.map Prod.fst →
      check_hallucinated_method name = none) ∧
    (∀ msg, check_hallucinated_method name = some msg →
      hint_in_message name msg = true) := by
  constructor
  · intro h
    unfold check_hallucinated_method
    rw [dictGet_eq_none_of_not_mem_keys _ _ h]
  · intro msg hmsg
    unfold check_hallucinated_method at hmsg
    unfold hint_in_message
    cases hdict : dictGet HALLUCINATED_METHODS name with
    | none => rw [hdict] at hmsg; exact absurd hmsg (by simp)
    | some entry =>
      rw [hdict] at hmsg
      obtain ⟨correct, hint⟩ := entry
      cases correct with
      | none => exact absurd hmsg (by simp)
      | some c =>
        have hmem := dictGet_mem hdict
        have hall := hallucinated_methods_hints_present
        rw [List.all_eq_true] at hall
        have := hall _ hmem
        cases hint with
        | none => simp at this
        | some h =>
          simp only [Option.some.injEq] at hmsg
          subst hmsg
          simp

/-- Witness for C7: a name absent from the table is valid, and the
flagged name `forEach` produces exactly the message carrying its hint. -/
theorem check_hallucinated_method_spec_witness :
    check_hallucinated_method "zzz_not_in_table" = none ∧
    hint_in_message "forEach"
      "\x27forEach\x27 is not a Python method. Use for loop - JavaScript pattern" = true :=
  ⟨(check_hallucinated_method_spec "zzz_not_in_table").1 (by decide),
   (check_hallucinated_method_spec "forEach").2 _ (by decide)⟩

/-! ### Claim C2: probe failures in import classification -/

theorem takeWhile_ne_dot_idem (l : List Char) :
    (l.takeWhile fun c => c ≠ '.').takeWhile (fun c => c ≠ '.') =
      l.takeWhile fun c => c ≠ '.' := by
  induction l with
  | nil => rfl
  | cons c cs ih =>
    rw [List.takeWhile_cons]
    by_cases h : c = '.'
    · simp [h]
    · simp only [List.takeWhile_cons, decide_not]
      rw [if_pos (by simp [h]), List.takeWhile_cons, if_pos (by simp [h])]
      simp only [decide_not] at ih
      rw [ih]

theorem baseModuleOf_idem (m : String) :
    baseModuleOf (baseModuleOf m) = baseModuleOf m := by
  unfold baseModuleOf
  rw [takeWhile_ne_dot_idem]

/-- C2 counterexample.  The claim asserts that a probe error makes the
classification return no error message.  With a probe that raises, the
unknown module `zzz` (not in the stdlib set, not in the hallucination
table) is nonetheless flagged: `module_exists` collapses the caught
exception to `False` and `validate_import` reports the module as
non-existent. -/
theorem validate_import_probe_error_flags :
    validate_import STDLIB_MODULES_FALLBACK (fun _ => ProbeResult.raises)
      "zzz" none = some "Module \x27zzz\x27 does not exist" := by
  decide

/-- C2 amended.  When the module-existence probe raises one of the caught
exception classes for the base module, no exception propagates out of
classification (the model is total and the exception is absorbed inside
`module_exists`), but the outcome is treated as "module does not exist":
provided neither the stdlib fast path nor the known-hallucination table
intervenes, `validate_import` returns the does-not-exist error message
rather than suppressing the finding. -/
theorem validate_import_probe_error (stdlib : List String)
    (probe : String → ProbeResult) (module_name : String)
    (name : Option String)
    (hprobe : probe (baseModuleOf module_name) = ProbeResult.raises)
    (hstd : baseModuleOf module_name ∉ stdlib)
    (hhal : ∀ n, name = some n → n ≠ "" →
      check_known_hallucination module_name (some n) = none) :
    validate_import stdlib probe module_name name =
      some ("Module \x27" ++ module_name ++ "\x27 does not exist") := by
  have hexists : module_exists stdlib probe (baseModuleOf module_name) = false := by
    unfold module_exists
    rw [baseModuleOf_idem, if_neg hstd, hprobe]
  cases name with
  | none => simp [validate_import, hexists]
  | some n =>
    by_cases hn : n = ""
    · simp [validate_import, hn, hexists]
    · simp [validate_import, hn, hhal n rfl hn, hexists]

/-- Witness for C2 amended: a raising probe on the unknown module
`zzzmod.sub` yields the does-not-exist message. -/
theorem validate_import_probe_error_witness :
    validate_import STDLIB_MODULES_FALLBACK (fun _ => ProbeResult.raises)
      "zzzmod.sub" none =
      some ("Module \x27zzzmod.sub\x27 does not exist") :=
  validate_import_probe_error STDLIB_MODULES_FALLBACK _ "zzzmod.sub" none
    (by rfl) (by decide) (by intro n h; cases h)

/-! ### Claim C5: `extract_functions` and the minimum-length cutoff -/

/-- The record (if any) that `extract_functions` produces for one walked
function node: present exactly when `end_lineno` is truthy and the
normalized source is longer than 50 characters. -/
def extractOne (file : List Char) (lines : List (List Char)) (fn : FuncNode) :
    Option FunctionInfo :=
  if fn.endTruthy ∧ 50 < (normalize_function (funcSourceOf lines fn)).length then
    some ⟨fn.name, file, fn.lineno, funcSourceOf lines fn,
      normalize_function (funcSourceOf lines fn)⟩
  else none

/-- C5 amended.  `extract_functions` discards a function exactly when its
`end_lineno` is missing/falsy or its normalized source text is at most 50
characters long (not: strictly shorter than 50), and otherwise records
exactly one `FunctionInfo` for it: the output is the `filterMap` of the
per-node record, and its length counts exactly the nodes passing the
truthy-end and `50 <` tests. -/
theorem extract_functions_spec (file : List Char) (lines : List (List Char))
    (funcs : List FuncNode) :
    extract_functions file lines funcs = funcs.filterMap (extractOne file lines) ∧
    (extract_functions file lines funcs).length = funcs.countP
      (fun fn => fn.endTruthy &&
        decide (50 < (normalize_function (funcSourceOf lines fn)).length)) := by
  induction funcs with
  | nil => exact ⟨rfl, rfl⟩
  | cons fn rest ih =>
    obtain ⟨ih1, ih2⟩ := ih
    constructor
    · simp only [extract_functions, List.filterMap_cons, ih1]
      unfold extractOne
      by_cases ht : fn.endTruthy
      · by_cases hl : 50 < (normalize_function (funcSourceOf lines fn)).length
        · simp [ht, hl]
        · simp [ht, hl]
      · simp [ht]
    · simp only [extract_functions, List.countP_cons, List.length_append, ih2]
      by_cases ht : fn.endTruthy
      · by_cases hl : 50 < (normalize_function (funcSourceOf lines fn)).length
        · simp [ht, hl, Nat.add_comm]
        · simp [ht, hl]
      · simp [ht]

/-- The two source lines of a function whose normalized text is exactly
50 characters long. -/
def c5Lines : List (List Char) :=
  ["def f():".data, "    return 1111111111111111111111111111111111".data]

/-- The walked node for the function of `c5Lines`. -/
def c5Func : FuncNode :=
  ⟨"f", 1, some 2⟩

/-- C5 counterexample.  The claim predicts that a function whose
normalized text is not shorter than the 50-character minimum is recorded;
the code's `len(normalized) > 50` test discards this function whose
normalized text has exactly 50 characters. -/
theorem extract_functions_boundary_discarded :
    (normalize_function (funcSourceOf c5Lines c5Func)).length = 50 ∧
    extract_functions "a.py".data c5Lines [c5Func] = [] := by
  constructor
  · decide
  · decide

/-! ### Claim C10: `RegexPattern.check_line` -/

theorem findFrom_start_ge (m : Matcher) (line : List Char) :
    ∀ fuel pos s e, findFrom m line pos fuel = some (s, e) → pos ≤ s := by
  intro fuel
  induction fuel with
  | zero => intro pos s e h; cases h
  | succ fuel ih =>
    intro pos s e h
    unfold findFrom at h
    cases hm : m line pos with
    | some e' =>
      rw [hm] at h
      cases h
      exact Nat.le_refl pos
    | none =>
      rw [hm] at h
      exact Nat.le_of_succ_le (ih (pos + 1) s e h)

theorem finditerAux_chain (m : Matcher) (line : List Char) :
    ∀ fuel pos,
      List.Chain' (fun a b : Nat × Nat => a.2 ≤ b.1)
        (finditerAux m line pos fuel) ∧
      ∀ x ∈ finditerAux m line pos fuel, pos ≤ x.1 := by
  intro fuel
  induction fuel with
  | zero => intro pos; exact ⟨List.chain'_nil, by intro x hx; cases hx⟩
  | succ fuel ih =>
    intro pos
    unfold finditerAux
    cases hf : findFrom m line pos (line.length + 1 - pos) with
    | none => exact ⟨List.chain'_nil, by intro x hx; cases hx⟩
    | some se =>
      obtain ⟨s, e⟩ := se
      have hpos : pos ≤ s := findFrom_start_ge m line _ pos s e hf
      have hnext : e ≤ (if e ≤ s then s + 1 else e) := by
        split_ifs with h
        · omega
        · exact Nat.le_refl e
      obtain ⟨ihc, ihm⟩ := ih (if e ≤ s then s + 1 else e)
      constructor
      · rw [List.chain'_cons']
        refine ⟨?_, ihc⟩
        intro b hb
        have hbmem : b ∈ finditerAux m line (if e ≤ s then s + 1 else e) fuel :=
          List.mem_of_mem_head? hb
        exact Nat.le_trans hnext (ihm b hbmem)
      · intro x hx
        rcases List.mem_cons.mp hx with hx | hx
        · rw [hx]; exact hpos
        · have := ihm x hx
          have hp' : pos ≤ (if e ≤ s then s + 1 else e) := by
            split_ifs <;> omega
          omega

/-- C10.  For every regex rule with a compiled pattern and every source
line, `check_line` returns exactly one `Issue` per `finditer` match — in
match order, each with `column` equal to that match's start offset and the
stripped line text as the offending snippet — and the matches `finditer`
yields are non-overlapping (each match starts no earlier than the previous
match's end), so one line can legitimately yield several findings. -/
theorem regexPattern_check_line_spec (p : RegexRule) (m : Matcher)
    (line : List Char) (lineno : Nat) (file : PyPath)
    (hp : p.pattern = some m) :
    regexPattern_check_line p line lineno file =
      (finditer m line).map (fun span =>
        create_issue p.id p.severity p.axis p.message file lineno span.1
          (some (pyStrip line))) ∧
    List.Chain' (fun a b : Nat × Nat => a.2 ≤ b.1) (finditer m line) := by
  constructor
  · unfold regexPattern_check_line
    rw [hp]
  · exact (finditerAux_chain m line (line.length + 1) 0).1

/-- A sample matcher for the witness: an anchored match of the single
character `a`. -/
def letterAMatcher : Matcher :=
  fun l pos => if l.getD pos ' ' == 'a' ∧ pos < l.length then some (pos + 1)
    else none

/-- A sample regex rule for the witness. -/
def letterARule : RegexRule :=
  ⟨"sample_rule", Severity.low, "noise", "sample message", some letterAMatcher⟩

/-- Witness for C10: on the line `a ba`, the sample rule yields one issue
per match of `a` (offsets 0 and 3), and the matches are non-overlapping. -/
theorem regexPattern_check_line_spec_witness :
    regexPattern_check_line letterARule " a ba ".data 7 ⟨"w.py".data, "w.py", []⟩ =
      (finditer letterAMatcher " a ba ".data).map (fun span =>
        create_issue "sample_rule" Severity.low "noise" "sample message"
          ⟨"w.py".data, "w.py", []⟩ 7 span.1 (some (pyStrip " a ba ".data))) ∧
    List.Chain' (fun a b : Nat × Nat => a.2 ≤ b.1)
      (finditer letterAMatcher " a ba ".data) :=
  regexPattern_check_line_spec letterARule letterAMatcher " a ba ".data 7
    ⟨"w.py".data, "w.py", []⟩ (by rfl)

/-! ### Claim C9: idempotence of `normalize_function` -/

theorem dropWhile_eq_self_of_head {α : Type} (p : α → Bool) :
    ∀ l : List α, (∀ a, l.head? = some a → p a = false) → l.dropWhile p = l := by
  intro l h
  cases l with
  | nil => rfl
  | cons c cs =>
    have := h c rfl
    simp [List.dropWhile, this]

theorem head?_dropWhile_false {α : Type} (p : α → Bool) (l : List α) :
    ∀ a, (l.dropWhile p).head? = some a → p a = false := by
  intro a ha
  have := List.head?_dropWhile_not p l
  rw [ha] at this
  exact this

theorem pyStrip_head (l : List Char) :
    ∀ a, (pyStrip l).head? = some a → pyIsSpace a = false := by
  intro a ha
  unfold pyStrip at ha
  rw [List.head?_reverse] at ha
  have hB : ((l.dropWhile pyIsSpace).reverse.dropWhile pyIsSpace) ≠ [] := by
    intro hnil
    rw [hnil] at ha
    cases ha
  obtain ⟨t, ht⟩ := List.dropWhile_suffix (l := (l.dropWhile pyIsSpace).reverse)
    pyIsSpace
  have hlast : ((l.dropWhile pyIsSpace).reverse.dropWhile pyIsSpace).getLast? =
      (l.dropWhile pyIsSpace).head? := by
    conv_lhs => rw [← List.getLast?_append_of_ne_nil t hB, ht]
    rw [List.getLast?_reverse]
  rw [hlast] at ha
  exact head?_dropWhile_false pyIsSpace l a ha

theorem pyStrip_revHead (l : List Char) :
    ∀ a, (pyStrip l).reverse.head? = some a → pyIsSpace a = false := by
  intro a ha
  unfold pyStrip at ha
  rw [List.reverse_reverse] at ha
  exact head?_dropWhile_false pyIsSpace _ a ha

theorem pyStrip_idem (l : List Char) : pyStrip (pyStrip l) = pyStrip l := by
  have h1 : (pyStrip l).dropWhile pyIsSpace = pyStrip l :=
    dropWhile_eq_self_of_head pyIsSpace _ (pyStrip_head l)
  have h2 : (pyStrip l).reverse.dropWhile pyIsSpace = (pyStrip l).reverse :=
    dropWhile_eq_self_of_head pyIsSpace _ (pyStrip_revHead l)
  show (((pyStrip l).dropWhile pyIsSpace).reverse.dropWhile pyIsSpace).reverse =
    pyStrip l
  rw [h1, h2, List.reverse_reverse]

theorem pyStrip_subset (l : List Char) : ∀ c ∈ pyStrip l, c ∈ l := by
  intro c hc
  unfold pyStrip at hc
  rw [List.mem_reverse] at hc
  have h1 := (List.dropWhile_sublist (l := (l.dropWhile pyIsSpace).reverse)
    pyIsSpace).subset hc
  rw [List.mem_reverse] at h1
  exact (List.dropWhile_sublist pyIsSpace).subset h1

/-- Unfolding of `pySplitlinesAux` on a cons cell that is not the start of
a `\r\n` pair. -/
theorem pySplitlinesAux_cons (cur cs : List Char) (c : Char)
    (h : ∀ cs1, c = '\r' → cs = '\n' :: cs1 → False) :
    pySplitlinesAux cur (c :: cs) =
      (if pyIsLineBreak c then cur.reverse :: pySplitlinesAux [] cs
       else pySplitlinesAux (c :: cur) cs) := by
  rw [pySplitlinesAux.eq_def]
  split
  · rename_i heq
    simp at heq
  · rename_i heq
    rw [List.cons.injEq] at heq
    exact (h _ heq.1 heq.2).elim
  · rename_i heq
    rw [List.cons.injEq] at heq
    rw [heq.1, heq.2]

/-- Unfolding of `pySplitlinesAux` on a cons cell whose head is not the
carriage return. -/
theorem pySplitlinesAux_cons_ne (cur cs : List Char) (c : Char)
    (h : c ≠ '\r') :
    pySplitlinesAux cur (c :: cs) =
      (if pyIsLineBreak c then cur.reverse :: pySplitlinesAux [] cs
       else pySplitlinesAux (c :: cur) cs) :=
  pySplitlinesAux_cons cur cs c (fun _ hc _ => h hc)

/-- Lines produced by `splitlines` contain no line boundary characters. -/
theorem pySplitlinesAux_no_break :
    ∀ (cur s : List Char), (∀ c ∈ cur, pyIsLineBreak c = false) →
      ∀ l ∈ pySplitlinesAux cur s, ∀ c ∈ l, pyIsLineBreak c = false := by
  intro cur s
  induction cur, s using pySplitlinesAux.induct with
  | case1 =>
    intro _ l hl
    simp [pySplitlinesAux] at hl
  | case2 cur hcur =>
    intro h l hl c hc
    unfold pySplitlinesAux at hl
    rw [if_neg hcur] at hl
    rw [List.mem_singleton] at hl
    subst hl
    exact h c (List.mem_reverse.mp hc)
  | case3 cur cs ih =>
    intro h l hl c hc
    have : pySplitlinesAux cur ('\r' :: '\n' :: cs) =
        cur.reverse :: pySplitlinesAux [] cs := rfl
    rw [this] at hl
    rcases List.mem_cons.mp hl with hl | hl
    · subst hl
      exact h c (List.mem_reverse.mp hc)
    · exact ih (by intro x hx; cases hx) l hl c hc
  | case4 cur c0 cs hne hbr ih =>
    intro h l hl c hc
    rw [pySplitlinesAux_cons cur cs c0 hne, if_pos hbr] at hl
    rcases List.mem_cons.mp hl with hl | hl
    · subst hl
      exact h c (List.mem_reverse.mp hc)
    · exact ih (by intro x hx; cases hx) l hl c hc
  | case5 cur c0 cs hne hbr ih =>
    intro h l hl c hc
    rw [pySplitlinesAux_cons cur cs c0 hne,
      if_neg (by simpa using hbr)] at hl
    refine ih ?_ l hl c hc
    intro x hx
    rcases List.mem_cons.mp hx with hx | hx
    · subst hx
      simpa using hbr
    · exact h x hx

/-- `splitlines` of boundary-free text yields at most that single line. -/
theorem pySplitlinesAux_nonbreak :
    ∀ (t cur : List Char), (∀ c ∈ t, pyIsLineBreak c = false) →
      pySplitlinesAux cur t =
        (if cur.reverse ++ t = [] then [] else [cur.reverse ++ t]) := by
  intro t
  induction t with
  | nil =>
    intro cur _
    unfold pySplitlinesAux
    rcases Classical.em (cur = []) with h | h
    · simp [h]
    · rw [if_neg h, List.append_nil,
        if_neg (by simpa using h)]
  | cons c cs ih =>
    intro cur h
    have hc : pyIsLineBreak c = false := h c (List.mem_cons_self _ _)
    have hcr : c ≠ '\r' := by
      intro hcr
      rw [hcr] at hc
      simp [pyIsLineBreak] at hc
    rw [pySplitlinesAux_cons_ne cur cs c hcr, if_neg (by simp [hc]),
      ih (c :: cur) (by intro x hx; exact h x (List.mem_cons_of_mem c hx))]
    have hrw : (c :: cur).reverse ++ cs = cur.reverse ++ c :: cs := by
      rw [List.reverse_cons, List.append_assoc]
      rfl
    rw [hrw, if_neg (by simp)]

/-- `splitlines` splits at an explicit `\n` separating boundary-free text
from the rest. -/
theorem pySplitlinesAux_append_nl :
    ∀ (t cur rest : List Char), (∀ c ∈ t, pyIsLineBreak c = false) →
      pySplitlinesAux cur (t ++ '\n' :: rest) =
        (cur.reverse ++ t) :: pySplitlinesAux [] rest := by
  intro t
  induction t with
  | nil =>
    intro cur rest _
    rw [List.nil_append,
      pySplitlinesAux_cons_ne cur rest '\n' (by decide),
      if_pos (by decide), List.append_nil]
  | cons c cs ih =>
    intro cur rest h
    have hc : pyIsLineBreak c = false := h c (List.mem_cons_self _ _)
    have hcr : c ≠ '\r' := by
      intro hcr
      rw [hcr] at hc
      simp [pyIsLineBreak] at hc
    rw [List.cons_append,
      pySplitlinesAux_cons_ne cur (cs ++ '\n' :: rest) c hcr,
      if_neg (by simp [hc]),
      ih (c :: cur) rest (by intro x hx; exact h x (List.mem_cons_of_mem c hx))]
    rw [List.reverse_cons, List.append_assoc]
    rfl

/-- Joining non-empty boundary-free lines with `\n` and re-splitting
recovers the lines. -/
theorem pySplitlines_join :
    ∀ ls : List (List Char),
      (∀ l ∈ ls, l ≠ [] ∧ ∀ c ∈ l, pyIsLineBreak c = false) →
      pySplitlines (pyJoinNL ls) = ls := by
  intro ls
  induction ls with
  | nil => intro _; rfl
  | cons l rest ih =>
    intro h
    cases rest with
    | nil =>
      show pySplitlinesAux [] (pyJoinNL [l]) = [l]
      unfold pyJoinNL
      rw [pySplitlinesAux_nonbreak l [] (h l (List.mem_cons_self _ _)).2,
        List.reverse_nil, List.nil_append,
        if_neg (h l (List.mem_cons_self _ _)).1]
    | cons l' rest' =>
      show pySplitlinesAux [] (pyJoinNL (l :: l' :: rest')) = l :: l' :: rest'
      unfold pyJoinNL
      rw [pySplitlinesAux_append_nl l [] (pyJoinNL (l' :: rest'))
        (h l (List.mem_cons_self _ _)).2]
      rw [List.reverse_nil, List.nil_append]
      have := ih (by intro x hx; exact h x (List.mem_cons_of_mem l hx))
      unfold pySplitlines at this
      rw [this]

/-- What a kept normalized line satisfies: it is the stripped input line
and passes the three keep tests. -/
theorem normLine_eq_some {line t : List Char} (h : normLine line = some t) :
    t = pyStrip line ∧ t ≠ [] ∧
    startsWithChars t "#".data = false ∧
    (startsWithChars t "\x22\x22\x22".data ||
      startsWithChars t "\x27\x27\x27".data) = false := by
  unfold normLine at h
  split_ifs at h with h1 h2 h3
  rw [Option.some.injEq] at h
  subst h
  exact ⟨rfl, h1, by simpa using h2, by simpa using h3⟩

/-- A kept normalized line is a fixed point of the per-line filter. -/
theorem normLine_fixed {line t : List Char} (h : normLine line = some t) :
    normLine t = some t := by
  obtain ⟨ht, hne, hhash, hquare⟩ := normLine_eq_some h
  have hstrip : pyStrip t = t := by
    rw [ht, pyStrip_idem]
  unfold normLine
  rw [hstrip, if_neg hne, if_neg (by simp [hhash]), if_neg (by simp [hquare])]

/-- Characters of a kept normalized line come from the input line. -/
theorem normLine_subset {line t : List Char} (h : normLine line = some t) :
    ∀ c ∈ t, c ∈ line := by
  obtain ⟨ht, _, _, _⟩ := normLine_eq_some h
  intro c hc
  exact pyStrip_subset line c (ht ▸ hc)

theorem filterMap_id_of_fixed {α : Type} (f : α → Option α) :
    ∀ l : List α, (∀ x ∈ l, f x = some x) → l.filterMap f = l := by
  intro l
  induction l with
  | nil => intro _; rfl
  | cons x xs ih =>
    intro h
    rw [List.filterMap_cons, h x (List.mem_cons_self _ _),
      ih (by intro y hy; exact h y (List.mem_cons_of_mem x hy))]

/-- C9.  `normalize_function` is idempotent: every line it keeps is
non-empty, stripped, boundary-free, and passes the keep tests again, so
re-splitting and re-filtering its output reproduces it unchanged. -/
theorem normalize_function_idem (s : List Char) :
    normalize_function (normalize_function s) = normalize_function s := by
  have hkept : ∀ t ∈ (pySplitlines s).filterMap normLine,
      normLine t = some t ∧ t ≠ [] ∧ ∀ c ∈ t, pyIsLineBreak c = false := by
    intro t ht
    obtain ⟨line, hline, hsome⟩ := List.mem_filterMap.mp ht
    refine ⟨normLine_fixed hsome, (normLine_eq_some hsome).2.1, ?_⟩
    intro c hc
    exact pySplitlinesAux_no_break [] s (by intro x hx; cases hx) line hline c
      (normLine_subset hsome c hc)
  show normalize_function
    (pyJoinNL ((pySplitlines s).filterMap normLine)) = _
  unfold normalize_function
  rw [pySplitlines_join ((pySplitlines s).filterMap normLine)
      (by intro l hl; exact ⟨(hkept l hl).2.1, (hkept l hl).2.2⟩),
    filterMap_id_of_fixed normLine _ (by intro x hx; exact (hkept x hx).1)]

/-! ### Claim C3: the `__main__` guard suppression of `DebugPrint` -/

/-- The backward-scan indices are strictly decreasing. -/
theorem mainScanIdxs_decreasing (lineno : Nat) :
    List.Pairwise (fun a b => b < a) (mainScanIdxs lineno) := by
  rw [List.pairwise_iff_getElem]
  intro i j hi hj hij
  simp only [mainScanIdxs, List.getElem_map, List.getElem_range]
  simp only [mainScanIdxs, List.length_map, List.length_range] at hi hj
  omega

/-- If the scanned indices contain a valid guard index `g` and every
scanned index above `g` is no stop line, the backward scan succeeds. -/
theorem mainScanLoop_finds_guard (source_lines : List (List Char)) :
    ∀ idxs : List Nat, List.Pairwise (fun a b => b < a) idxs →
      ∀ g (hg : g < source_lines.length), g ∈ idxs →
      isGuardLine (pyStrip (source_lines.get ⟨g, hg⟩)) = true →
      (∀ j ∈ idxs, g < j → ∀ hj : j < source_lines.length,
        isScanStopLine (source_lines.get ⟨j, hj⟩)
          (pyStrip (source_lines.get ⟨j, hj⟩)) = false) →
      mainScanLoop source_lines idxs = true := by
  intro idxs
  induction idxs with
  | nil => intro _ g _ hmem; cases hmem
  | cons i rest ih =>
    intro hpw g hg hmem hguard hstop
    have hpw' := List.pairwise_cons.mp hpw
    unfold mainScanLoop
    rcases List.mem_cons.mp hmem with hi | hi
    · subst hi
      rw [dif_pos hg, if_pos hguard]
    · have hgi : g < i := hpw'.1 g hi
      have hrec : mainScanLoop source_lines rest = true :=
        ih hpw'.2 g hg hi hguard
          (by intro j hj hgj hjl; exact hstop j (List.mem_cons_of_mem i hj) hgj hjl)
      split
      · rename_i hil
        split
        · rfl
        · split
          · rename_i hsl
            have hs := hstop i (List.mem_cons_self _ _) hgi hil
            rw [hs] at hsl
            cases hsl
          · exact hrec
      · exact hrec

/-- C3 amended.  A `print` call is never flagged when the `__main__`
guard line lies within the backward-scan window of `_is_in_main_block`
(at most 98 lines above the call line) and none of the scanned lines
between the guard and the call is a stop line — a line whose stripped
text starts with `def ` or `class ` and whose raw text does not start
with a space character (note: this includes tab-indented definitions,
and is not the same as "column-0 definitions"). -/
theorem debugPrint_guarded_not_flagged (source_lines : List (List Char))
    (file : PyPath) (lineno col : Nat) (funcName : Option String)
    (cs : List PyNode)
    (hg : ∃ g, ∃ hgl : g < source_lines.length,
      g ∈ mainScanIdxs lineno ∧
      isGuardLine (pyStrip (source_lines.get ⟨g, hgl⟩)) = true ∧
      ∀ j ∈ mainScanIdxs lineno, g < j → ∀ hj : j < source_lines.length,
        isScanStopLine (source_lines.get ⟨j, hj⟩)
          (pyStrip (source_lines.get ⟨j, hj⟩)) = false) :
    debugPrint_check_node (.node .callExpr lineno col funcName cs) file
      source_lines = [] := by
  obtain ⟨g, hgl, hmem, hguard, hstop⟩ := hg
  have hln : lineno ≠ 0 := by
    intro h
    rw [h] at hmem
    cases hmem
  have hmain : is_in_main_block lineno source_lines = true := by
    unfold is_in_main_block
    rw [if_neg hln]
    exact mainScanLoop_finds_guard source_lines (mainScanIdxs lineno)
      (mainScanIdxs_decreasing lineno) g hgl hmem hguard hstop
  simp [debugPrint_check_node, hmain]

/-- Witness for C3 amended: a two-line file whose guard is on line 1 and
whose `print` call is on line 2 is not flagged. -/
theorem debugPrint_guarded_not_flagged_witness :
    debugPrint_check_node (.node .callExpr 2 4 (some "print") [])
      ⟨"app.py".data, "app.py", [""]⟩
      ["if __name__ == \x22__main__\x22:".data, "    print(1)".data] = [] :=
  debugPrint_guarded_not_flagged _ _ 2 4 (some "print") []
    ⟨0, by decide, by decide, by decide, by decide⟩

/-- A 100-line file: the `__main__` guard on line 1, then 98 filler
lines, then a `print` call on line 100.  The backward scan of
`_is_in_main_block` visits indices 99 down to 1 and never reaches the
guard at index 0. -/
def c3Lines : List (List Char) :=
  "if __name__ == \x22__main__\x22:".data ::
    (List.replicate 98 "x=1".data ++ ["    print(1)".data])

set_option maxRecDepth 100000 in
/-- C3 counterexample.  The guard line precedes the call in the file and
no column-0 `def `/`class ` line lies between them, yet the debug-print
rule flags the call on line 100: the guard sits just outside the capped
backward-scan window. -/
theorem debugPrint_cap_misses_guard :
    isGuardLine (pyStrip (c3Lines.getD 0 [])) = true ∧
    ((List.range' 1 99).all fun j =>
      !(startsWithChars (c3Lines.getD j []) "def ".data ||
        startsWithChars (c3Lines.getD j []) "class ".data)) = true ∧
    debugPrint_check_node (.node .callExpr 100 4 (some "print") [])
      ⟨"app.py".data, "app.py", [""]⟩ c3Lines ≠ [] := by
  refine ⟨by decide, by decide, ?_⟩
  decide

/-! ### Claim C8: nesting-depth tracking and the deep-nesting finding -/

/-- The deep-nesting findings among a list of issues. -/
def deepOnly (l : List Issue) : List Issue :=
  l.filter fun i => i.pattern_id == "deep_nesting"

mutual

/-- Specification of the deep-nesting findings the walker must emit for a
subtree entered at depth `d`: nested-block nodes raise the depth by one on
entry, emit exactly one finding for themselves when the raised depth
exceeds 4 (before their subtree's findings), and restore the depth on
exit. -/
def deepSpec (file : PyPath) (d : Nat) : PyNode → List Issue
  | .node k ln col _ cs =>
    if k ∈ nestedKinds then
      (if 4 < d + 1 then [deepNestingIssue file ln col (d + 1)] else []) ++
        deepSpecList file (d + 1) cs
    else deepSpecList file d cs

/-- List version of `deepSpec` over sibling subtrees. -/
def deepSpecList (file : PyPath) (d : Nat) : List PyNode → List Issue
  | [] => []
  | c :: cs => deepSpec file d c ++ deepSpecList file d cs

end

/-- Rules never emit an issue carrying the reserved `deep_nesting` id
(the built-in finding is the walker's own). -/
def noDeepIds (ps : List PatternObj) : Prop :=
  ∀ p ∈ ps, ∀ f, p.check_node = some f →
    ∀ n fl ls, ∀ i ∈ f n fl ls, i.pattern_id ≠ "deep_nesting"

theorem check_patterns_deepOnly (ps : List PatternObj) (file : PyPath)
    (source_lines : List (List Char)) (n : PyNode) (hp : noDeepIds ps) :
    deepOnly (check_patterns_issues ps file source_lines n) = [] := by
  unfold deepOnly
  rw [List.filter_eq_nil_iff]
  intro i hi
  obtain ⟨p, hpmem, hin⟩ := List.mem_flatMap.mp hi
  simp only [beq_iff_eq]
  cases hf : p.check_node with
  | none => rw [hf] at hin; cases hin
  | some f =>
    simp only [hf] at hin
    by_cases hnt : p.node_types = [] ∨ n.kind ∈ p.node_types
    · rw [if_pos hnt] at hin
      exact hp p hpmem f hf n file source_lines i hin
    · rw [if_neg hnt] at hin
      cases hin

theorem deepOnly_append (a b : List Issue) :
    deepOnly (a ++ b) = deepOnly a ++ deepOnly b :=
  List.filter_append ..

theorem deepOnly_deepIssue (file : PyPath) (ln col d : Nat) :
    deepOnly [deepNestingIssue file ln col d] =
      [deepNestingIssue file ln col d] := by
  simp [deepOnly, deepNestingIssue]

mutual

/-- C8 (node form).  Visiting any node preserves the nesting-depth
counter (every increment on entry is matched by the decrement on exit),
and the deep-nesting findings accumulated by the visit are exactly the
incoming ones followed by `deepSpec`: one medium-severity `deep_nesting`
finding per nested-block node whose entry depth exceeds 4, carrying that
node's location and placed before its subtree's findings. -/
theorem visitNode_deep (ps : List PatternObj) (file : PyPath)
    (source_lines : List (List Char)) (hp : noDeepIds ps) :
    ∀ (n : PyNode) (st : AnalyzerState),
      (visitNode ps file source_lines st n).nesting_depth =
        st.nesting_depth ∧
      deepOnly (visitNode ps file source_lines st n).issues =
        deepOnly st.issues ++ deepSpec file st.nesting_depth n := by
  intro n st
  obtain ⟨k, ln, col, fn, cs⟩ := n
  by_cases hk : k ∈ nestedKinds
  · constructor
    · simp only [visitNode, if_pos hk]
      rw [(visitList_deep ps file source_lines hp cs _).1]
      simp
    · simp only [visitNode, if_pos hk]
      rw [(visitList_deep ps file source_lines hp cs _).2]
      simp only [deepSpec, if_pos hk, deepOnly_append,
        check_patterns_deepOnly ps file source_lines _ hp, List.append_nil]
      by_cases hd : 4 < st.nesting_depth + 1
      · simp only [if_pos hd, deepOnly_deepIssue, List.append_assoc]
      · simp only [if_neg hd]
        simp [deepOnly]
  · by_cases hk2 : k ∈ dispatchKinds
    · constructor
      · simp only [visitNode, if_neg hk, if_pos hk2]
        rw [(visitList_deep ps file source_lines hp cs _).1]
      · simp only [visitNode, if_neg hk, if_pos hk2]
        rw [(visitList_deep ps file source_lines hp cs _).2]
        simp only [deepSpec, if_neg hk, deepOnly_append,
          check_patterns_deepOnly ps file source_lines _ hp, List.append_nil]
    · constructor
      · simp only [visitNode, if_neg hk, if_neg hk2]
        rw [(visitList_deep ps file source_lines hp cs _).1]
      · simp only [visitNode, if_neg hk, if_neg hk2]
        rw [(visitList_deep ps file source_lines hp cs _).2]
        simp only [deepSpec, if_neg hk]

/-- List version of `visitNode_deep` over sibling subtrees. -/
theorem visitList_deep (ps : List PatternObj) (file : PyPath)
    (source_lines : List (List Char)) (hp : noDeepIds ps) :
    ∀ (l : List PyNode) (st : AnalyzerState),
      (visitList ps file source_lines st l).nesting_depth =
        st.nesting_depth ∧
      deepOnly (visitList ps file source_lines st l).issues =
        deepOnly st.issues ++ deepSpecList file st.nesting_depth l := by
  intro l st
  cases l with
  | nil => exact ⟨rfl, by simp [visitList, deepSpecList]⟩
  | cons c rest =>
    have hnode := visitNode_deep ps file source_lines hp c st
    have hrest := visitList_deep ps file source_lines hp rest
      (visitNode ps file source_lines st c)
    constructor
    · simp only [visitList]
      rw [hrest.1, hnode.1]
    · simp only [visitList]
      rw [hrest.2, hnode.2, hnode.1]
      simp [deepSpecList, List.append_assoc]

end

/-- A five-deep chain of `if` statements. -/
def c8Tree : PyNode :=
  .node .ifStmt 1 0 none [.node .ifStmt 2 4 none [.node .ifStmt 3 8 none
    [.node .ifStmt 4 12 none [.node .ifStmt 5 16 none []]]]]

/-- Witness for C8: walking five nested `if`s from depth 0 restores the
depth and emits the deep-nesting findings prescribed by `deepSpec` (here:
exactly one, for the innermost `if`, entered at depth 5). -/
theorem visitNode_deep_witness :
    (visitNode [] ⟨"w.py".data, "w.py", []⟩ [] ⟨[], 0⟩ c8Tree).nesting_depth = 0 ∧
    deepOnly (visitNode [] ⟨"w.py".data, "w.py", []⟩ [] ⟨[], 0⟩ c8Tree).issues =
      deepOnly ([] : List Issue) ++ deepSpec ⟨"w.py".data, "w.py", []⟩ 0 c8Tree :=
  visitNode_deep [] ⟨"w.py".data, "w.py", []⟩ []
    (by intro p hp; cases hp) c8Tree ⟨[], 0⟩

/-! ### Claim C1: disabled rules and the scan output -/

/-- A rule object whose emitted findings always carry its own id (true of
every rule in the repository: they build findings with `create_issue`). -/
def emitsOwnId (p : PatternObj) : Prop :=
  (∀ f, p.check_node = some f →
    ∀ n fl ls, ∀ i ∈ f n fl ls, i.pattern_id = p.id) ∧
  (∀ g, p.check_line = some g →
    ∀ line ln fl, ∀ i ∈ g line ln fl, i.pattern_id = p.id)

theorem check_patterns_ids (ps : List PatternObj) (file : PyPath)
    (source_lines : List (List Char)) (n : PyNode)
    (hp : ∀ p ∈ ps, emitsOwnId p) :
    ∀ i ∈ check_patterns_issues ps file source_lines n,
      i.pattern_id ∈ ps.map (fun p => p.id) := by
  intro i hi
  obtain ⟨p, hpmem, hin⟩ := List.mem_flatMap.mp hi
  cases hf : p.check_node with
  | none => rw [hf] at hin; cases hin
  | some f =>
    simp only [hf] at hin
    by_cases hnt : p.node_types = [] ∨ n.kind ∈ p.node_types
    · rw [if_pos hnt] at hin
      rw [(hp p hpmem).1 f hf n file source_lines i hin]
      exact List.mem_map_of_mem _ hpmem
    · rw [if_neg hnt] at hin
      cases hin

mutual

/-- Ids of the findings accumulated by one node visit: incoming findings,
rule ids, or the built-in `deep_nesting`. -/
theorem visitNode_ids (ps : List PatternObj) (file : PyPath)
    (source_lines : List (List Char)) (hp : ∀ p ∈ ps, emitsOwnId p) :
    ∀ (n : PyNode) (st : AnalyzerState),
      ∀ i ∈ (visitNode ps file source_lines st n).issues,
        i ∈ st.issues ∨ i.pattern_id ∈ ps.map (fun p => p.id) ∨
          i.pattern_id = "deep_nesting" := by
  intro n st i hi
  obtain ⟨k, ln, col, fn, cs⟩ := n
  by_cases hk : k ∈ nestedKinds
  · simp only [visitNode, if_pos hk] at hi
    rcases visitList_ids ps file source_lines hp cs _ i hi with hin | hid
    · rcases List.mem_append.mp hin with hin | hin
      · rcases List.mem_append.mp hin with hin | hin
        · exact Or.inl hin
        · right; right
          split at hin
          · rw [List.mem_singleton] at hin
            rw [hin]
            rfl
          · cases hin
      · exact Or.inr (Or.inl
          (check_patterns_ids ps file source_lines _ hp i hin))
    · exact Or.inr hid
  · by_cases hk2 : k ∈ dispatchKinds
    · simp only [visitNode, if_neg hk, if_pos hk2] at hi
      rcases visitList_ids ps file source_lines hp cs _ i hi with hin | hid
      · rcases List.mem_append.mp hin with hin | hin
        · exact Or.inl hin
        · exact Or.inr (Or.inl
            (check_patterns_ids ps file source_lines _ hp i hin))
      · exact Or.inr hid
    · simp only [visitNode, if_neg hk, if_neg hk2] at hi
      exact visitList_ids ps file source_lines hp cs st i hi

/-- List version of `visitNode_ids`. -/
theorem visitList_ids (ps : List PatternObj) (file : PyPath)
    (source_lines : List (List Char)) (hp : ∀ p ∈ ps, emitsOwnId p) :
    ∀ (l : List PyNode) (st : AnalyzerState),
      ∀ i ∈ (visitList ps file source_lines st l).issues,
        i ∈ st.issues ∨ i.pattern_id ∈ ps.map (fun p => p.id) ∨
          i.pattern_id = "deep_nesting" := by
  intro l st i hi
  cases l with
  | nil => exact Or.inl hi
  | cons c rest =>
    simp only [visitList] at hi
    rcases visitList_ids ps file source_lines hp rest _ i hi with hin | hid
    · exact visitNode_ids ps file source_lines hp c st i hin
    · exact Or.inr hid

end

/-- Decidable statement that one finding's id is accounted for: an enabled
pattern's id, a not-disabled file-level/cross-file analyzer id, or the
built-in `deep_nesting` (which the walker emits regardless of the
disabled set). -/
def idAllowed (enabledIds disabled : List String) (i : Issue) : Bool :=
  enabledIds.contains i.pattern_id ||
  (["unused_import", "dead_code", "duplicate_code"].contains i.pattern_id &&
    !(disabled.contains i.pattern_id)) ||
  i.pattern_id == "deep_nesting"

theorem idAllowed_of_enabled {enabledIds disabled : List String} {i : Issue}
    (h : i.pattern_id ∈ enabledIds) : idAllowed enabledIds disabled i = true := by
  unfold idAllowed
  have hc : enabledIds.contains i.pattern_id = true := List.elem_eq_true_of_mem h
  rw [hc]
  rfl

theorem idAllowed_of_analyzer {enabledIds disabled : List String} {i : Issue}
    (h : i.pattern_id ∈ (["unused_import", "dead_code", "duplicate_code"] : List String))
    (hnd : i.pattern_id ∉ disabled) :
    idAllowed enabledIds disabled i = true := by
  unfold idAllowed
  have hc : (["unused_import", "dead_code", "duplicate_code"] :
      List String).contains i.pattern_id = true := List.elem_eq_true_of_mem h
  have hc2 : disabled.contains i.pattern_id = false := by
    rw [← Bool.not_eq_true]
    intro hcc
    exact hnd (List.mem_of_elem_eq_true hcc)
  rw [hc, hc2]
  simp

theorem idAllowed_of_deep {enabledIds disabled : List String} {i : Issue}
    (h : i.pattern_id = "deep_nesting") :
    idAllowed enabledIds disabled i = true := by
  unfold idAllowed
  rw [h]
  simp

/-- Ids of the findings of one file's scan phase are accounted for. -/
theorem scan_file_ids (allPatterns : List PatternObj)
    (fUnused fDead : PyPath → List (List Char) → List Issue)
    (disabled : List String) (f : SrcFile)
    (hps : ∀ p ∈ allPatterns, emitsOwnId p)
    (hU : ∀ fl lines, ∀ i ∈ fUnused fl lines, i.pattern_id = "unused_import")
    (hD : ∀ fl lines, ∀ i ∈ fDead fl lines, i.pattern_id = "dead_code") :
    ∀ i ∈ (scan_file_with_content
        (allPatterns.filter fun p => p.id ∉ disabled) disabled fUnused fDead
        f).1,
      idAllowed
        ((allPatterns.filter fun p => p.id ∉ disabled).map fun p => p.id)
        disabled i = true := by
  intro i hi
  have hsub : ∀ p ∈ (allPatterns.filter fun p => p.id ∉ disabled),
      emitsOwnId p := by
    intro p hp
    exact hps p (List.mem_of_mem_filter hp)
  cases hparsed : f.parsed with
  | none =>
    unfold scan_file_with_content at hi
    rw [hparsed] at hi
    cases hi
  | some lt =>
    obtain ⟨lines, tree⟩ := lt
    unfold scan_file_with_content at hi
    rw [hparsed] at hi
    simp only [List.append_assoc, List.mem_append] at hi
    rcases hi with hi | hi | hi | hi
    · rcases visitNode_ids _ f.path lines hsub tree ⟨[], 0⟩ i hi with
        h | h | h
      · cases h
      · exact idAllowed_of_enabled h
      · exact idAllowed_of_deep h
    · obtain ⟨p, hpmem, hin⟩ := List.mem_flatMap.mp hi
      cases hg : p.check_line with
      | none => rw [hg] at hin; cases hin
      | some g =>
        simp only [hg] at hin
        obtain ⟨e, _, hie⟩ := List.mem_flatMap.mp hin
        have hid := (hps p (List.mem_of_mem_filter hpmem)).2 g hg e.2
          (e.1 + 1) f.path i hie
        refine idAllowed_of_enabled ?_
        rw [hid]
        exact List.mem_map_of_mem _ hpmem
    · split at hi
      · rename_i hguard
        have hid := hU f.path lines i hi
        exact idAllowed_of_analyzer (by rw [hid]; simp)
          (by rw [hid]; simpa using hguard)
      · cases hi
    · split at hi
      · rename_i hguard
        have hid := hD f.path lines i hi
        exact idAllowed_of_analyzer (by rw [hid]; simp)
          (by rw [hid]; simpa using hguard)
      · cases hi

/-- C1 amended.  Every finding in the output of `Detector.scan` carries
either the id of an enabled pattern (one whose id is not in the disabled
set), or the id of one of the file-level/cross-file analyzer passes
(`unused_import`, `dead_code`, `duplicate_code`) whose id is not in the
disabled set, or the built-in id `deep_nesting` — and the latter is
emitted by the walker itself regardless of the disabled set, so disabling
`"deep_nesting"` does not keep it out of the output. -/
theorem detector_scan_rule_ids (allPatterns : List PatternObj)
    (fUnused fDead : PyPath → List (List Char) → List Issue)
    (fCross : List (PyPath × List (List Char)) → List Issue)
    (disabled : List String) (min_severity : String) (files : List SrcFile)
    (hps : ∀ p ∈ allPatterns, emitsOwnId p)
    (hU : ∀ fl lines, ∀ i ∈ fUnused fl lines, i.pattern_id = "unused_import")
    (hD : ∀ fl lines, ∀ i ∈ fDead fl lines, i.pattern_id = "dead_code")
    (hC : ∀ contents, ∀ i ∈ fCross contents,
      i.pattern_id = "duplicate_code") :
    (detector_scan allPatterns fUnused fDead fCross disabled min_severity
        files).all
      (idAllowed
        ((allPatterns.filter fun p => p.id ∉ disabled).map fun p => p.id)
        disabled) = true := by
  rw [List.all_eq_true]
  intro i hi
  unfold detector_scan at hi
  have hkept := (List.perm_insertionSort issueLe _).mem_iff.mp hi
  have hmem := List.mem_of_mem_filter hkept
  rcases List.mem_append.mp hmem with hmem | hmem
  · obtain ⟨r, hr, hir⟩ := List.mem_flatMap.mp hmem
    obtain ⟨f, _, hf⟩ := List.mem_map.mp hr
    rw [← hf] at hir
    exact scan_file_ids allPatterns fUnused fDead disabled f hps hU hD i hir
  · split at hmem
    · rename_i hguard
      have hid := hC _ i hmem
      exact idAllowed_of_analyzer (by rw [hid]; simp)
        (by rw [hid]; simpa using hguard.1)
    · cases hmem

theorem debugPrint_check_node_id :
    ∀ n fl ls, ∀ i ∈ debugPrint_check_node n fl ls,
      i.pattern_id = "debug_print" := by
  intro n fl ls i hi
  obtain ⟨k, ln, col, fn, cs⟩ := n
  unfold debugPrint_check_node at hi
  split_ifs at hi <;> first
    | cases hi
    | (simp only [List.mem_singleton] at hi
       subst hi
       rfl)
    | (simp at hi
       obtain ⟨h1, h2, h3, hieq⟩ := hi
       rw [hieq]
       rfl)
    | simp at hi

theorem debugPrintPattern_emitsOwnId : emitsOwnId debugPrintPattern := by
  constructor
  · intro f hf n fl ls i hi
    have hfe : f = debugPrint_check_node := by
      have : debugPrintPattern.check_node = some debugPrint_check_node := rfl
      rw [this] at hf
      exact (Option.some.injEq .. ▸ hf).symm
    subst hfe
    exact debugPrint_check_node_id n fl ls i hi
  · intro g hg
    have : debugPrintPattern.check_line = none := rfl
    rw [this] at hg
    cases hg

/-- A parsed module holding a five-deep chain of `if` statements. -/
def c1Tree : PyNode :=
  .node .moduleRoot 0 0 none
    [.node .ifStmt 1 0 none [.node .ifStmt 2 4 none [.node .ifStmt 3 8 none
      [.node .ifStmt 4 12 none [.node .ifStmt 5 16 none []]]]]]

set_option maxRecDepth 10000 in
/-- C1 counterexample.  With `deep_nesting` in the disabled-patterns set,
scanning a file with five nested `if`s still returns a finding whose
`pattern_id` is `deep_nesting`: the built-in deep-nesting check bypasses
the disable-by-id mechanism, so a disabled rule id appears in the
output. -/
theorem detector_scan_disabled_deep_nesting_leaks :
    (detector_scan [debugPrintPattern] (fun _ _ => []) (fun _ _ => [])
        (fun _ => []) ["deep_nesting"] "low"
        [⟨⟨"a.py".data, "a.py", [""]⟩,
          some (["x=1".data], c1Tree)⟩]).map (fun i => i.pattern_id) =
      ["deep_nesting"] := by
  decide

set_option maxRecDepth 10000 in
/-- Witness for C1 amended, at a concrete configuration with nothing
disabled: every finding's id is accounted for. -/
theorem detector_scan_rule_ids_witness :
    (detector_scan [debugPrintPattern] (fun _ _ => []) (fun _ _ => [])
        (fun _ => []) [] "low"
        [⟨⟨"a.py".data, "a.py", [""]⟩,
          some (["x=1".data], c1Tree)⟩]).all
      (idAllowed
        (([debugPrintPattern].filter fun p => p.id ∉ ([] : List String)).map
          fun p => p.id) []) = true :=
  detector_scan_rule_ids [debugPrintPattern] (fun _ _ => []) (fun _ _ => [])
    (fun _ => []) [] "low"
    [⟨⟨"a.py".data, "a.py", [""]⟩, some (["x=1".data], c1Tree)⟩]
    (by
      intro p hp
      rw [List.mem_singleton] at hp
      subst hp
      exact debugPrintPattern_emitsOwnId)
    (by intro fl lines i hi; cases hi)
    (by intro fl lines i hi; cases hi)
    (by intro contents i hi; cases hi)

/-! ### Claim C6: symmetry of the similarity ratio -/

/-- C6 counterexample.  The `SequenceMatcher` ratio used by
`find_duplicates` is not symmetric: for the texts `ABzCD` and `CDABxz`
the two argument orders give 6/11 and 4/11.  (The greedy longest-block
tie-breaking prefers the earliest block of the first sequence, and which
crossing block wins determines how much of the remainder can still
match.) -/
theorem ratioOf_not_symmetric :
    ratioOf "ABzCD".data "CDABxz".data ≠ ratioOf "CDABxz".data "ABzCD".data := by
  have h1 : matchesSum "ABzCD".data "CDABxz".data = 3 := by decide
  have h2 : matchesSum "CDABxz".data "ABzCD".data = 2 := by decide
  unfold ratioOf
  rw [h1, h2]
  norm_num

/-! #### `ratioOf s s = 1`: the matcher finds the whole diagonal

On two equal sequences of length `n ≥ 1` the row scan of
`find_longest_match` ends with the best block `(0, 0, n)`: runs ending at
`(i, j)` are bounded by `min i j + 1`, the diagonal run at `(i, i)` has
length exactly `i + 1`, and since the candidate positions of a row are
scanned in ascending order the diagonal update of the last row happens
while the best size is still below `n` and nothing afterwards can beat
it. -/

theorem flmInner_append (blo bhi i : Nat) (j2len : Nat → Nat)
    (l1 l2 : List Nat) (hlt : ∀ j ∈ l1, j < bhi) :
    ∀ (nl : Nat → Nat) (best : Nat × Nat × Nat),
      flmInner blo bhi i j2len (l1 ++ l2) nl best =
        flmInner blo bhi i j2len l2
          (flmInner blo bhi i j2len l1 nl best).1
          (flmInner blo bhi i j2len l1 nl best).2 := by
  induction l1 with
  | nil => intro nl best; rfl
  | cons j js ih =>
    intro nl best
    have hj : j < bhi := hlt j (List.mem_cons_self _ _)
    have hlt' : ∀ x ∈ js, x < bhi := by
      intro x hx
      exact hlt x (List.mem_cons_of_mem j hx)
    by_cases hblo : j < blo
    · simp only [List.cons_append, flmInner, if_pos hblo]
      exact ih hlt' nl best
    · simp only [List.cons_append, flmInner, if_neg hblo,
        if_neg (by omega : ¬ bhi ≤ j)]
      exact ih hlt' _ _

/-- Processing candidate positions strictly below the row index `t` keeps
the best size at most `t` and writes only run lengths bounded by the
position (uses the `≤ j + 1` bound on the previous row). -/
theorem flmInner_preDiag (n t : Nat) (j2len : Nat → Nat)
    (hrow2 : ∀ j, j2len j ≤ j + 1) :
    ∀ (js : List Nat) (nl : Nat → Nat) (best : Nat × Nat × Nat),
      (∀ j ∈ js, j < t) →
      best.2.2 ≤ t →
      (∀ j, nl j ≤ t + 1) → (∀ j, nl j ≤ j + 1) →
      (flmInner 0 n t j2len js nl best).2.2.2 ≤ t ∧
      (∀ j, (flmInner 0 n t j2len js nl best).1 j ≤ t + 1) ∧
      (∀ j, (flmInner 0 n t j2len js nl best).1 j ≤ j + 1) ∧
      (flmInner 0 n t j2len js nl best).1 t = nl t := by
  intro js
  induction js with
  | nil =>
    intro nl best _ hb h1 h2
    exact ⟨hb, h1, h2, rfl⟩
  | cons j js ih =>
    intro nl best hjs hb h1 h2
    have hjt : j < t := hjs j (List.mem_cons_self _ _)
    have hk : (if j = 0 then 0 else j2len (j - 1)) + 1 ≤ j + 1 := by
      by_cases hj0 : j = 0
      · simp [hj0]
      · have := hrow2 (j - 1)
        rw [if_neg hj0]
        omega
    by_cases hbreak : n ≤ j
    · simp only [flmInner, if_neg (by omega : ¬ j < 0), if_pos hbreak]
      exact ⟨hb, h1, h2, by first | rfl | trivial⟩
    · simp only [flmInner, if_neg (by omega : ¬ j < 0), if_neg hbreak]
      set K := (if j = 0 then 0 else j2len (j - 1)) + 1 with hKdef
      set nl2 : Nat → Nat := fun j' => if j' = j then K else nl j' with hnl2
      set best2 := if best.2.2 < K then (t + 1 - K, j + 1 - K, K) else best
        with hbest2
      have hKb : K ≤ j + 1 := hk
      have hb2 : best2.2.2 ≤ t := by
        rw [hbest2]
        split
        · show K ≤ t
          omega
        · exact hb
      have h12 : ∀ x, nl2 x ≤ t + 1 := by
        intro x
        rw [hnl2]
        dsimp only
        split
        · omega
        · exact h1 x
      have h22 : ∀ x, nl2 x ≤ x + 1 := by
        intro x
        rw [hnl2]
        dsimp only
        split
        · rename_i hxj
          rw [hxj]
          exact hKb
        · exact h2 x
      have hres := ih nl2 best2
        (fun x hx => hjs x (List.mem_cons_of_mem j hx)) hb2 h12 h22
      refine ⟨hres.1, hres.2.1, hres.2.2.1, ?_⟩
      rw [hres.2.2.2, hnl2]
      dsimp only
      rw [if_neg (by omega : ¬ t = j)]

/-- Processing candidate positions strictly above the row index `t` never
updates a best block of size `t + 1` (run lengths are bounded by `t + 1`
via the `≤ t` bound on the previous row) and preserves the diagonal entry
of the new row. -/
theorem flmInner_postDiag (n t : Nat) (j2len : Nat → Nat)
    (hrow1 : ∀ j, j2len j ≤ t) :
    ∀ (js : List Nat) (nl : Nat → Nat) (best : Nat × Nat × Nat),
      (∀ j ∈ js, t < j) →
      best.2.2 = t + 1 →
      (∀ j, nl j ≤ t + 1) → (∀ j, nl j ≤ j + 1) → nl t = t + 1 →
      (flmInner 0 n t j2len js nl best).2 = best ∧
      (∀ j, (flmInner 0 n t j2len js nl best).1 j ≤ t + 1) ∧
      (∀ j, (flmInner 0 n t j2len js nl best).1 j ≤ j + 1) ∧
      (flmInner 0 n t j2len js nl best).1 t = t + 1 := by
  intro js
  induction js with
  | nil =>
    intro nl best _ _ h1 h2 hd
    exact ⟨rfl, h1, h2, hd⟩
  | cons j js ih =>
    intro nl best hjs hb h1 h2 hd
    have hjt : t < j := hjs j (List.mem_cons_self _ _)
    by_cases hbreak : n ≤ j
    · simp only [flmInner, if_neg (by omega : ¬ j < 0), if_pos hbreak]
      exact ⟨by first | rfl | trivial, h1, h2, hd⟩
    · simp only [flmInner, if_neg (by omega : ¬ j < 0), if_neg hbreak]
      set K := (if j = 0 then 0 else j2len (j - 1)) + 1 with hKdef
      have hKb : K ≤ t + 1 := by
        rw [hKdef, if_neg (by omega : ¬ j = 0)]
        have := hrow1 (j - 1)
        omega
      rw [if_neg (by omega : ¬ best.2.2 < K)]
      have h12 : ∀ x, (fun j' => if j' = j then K else nl j') x ≤ t + 1 := by
        intro x
        dsimp only
        split
        · exact hKb
        · exact h1 x
      have h22 : ∀ x, (fun j' => if j' = j then K else nl j') x ≤ x + 1 := by
        intro x
        dsimp only
        split
        · rename_i hxj
          omega
        · exact h2 x
      have hd2 : (fun j' => if j' = j then K else nl j') t = t + 1 := by
        dsimp only
        rw [if_neg (by omega : ¬ t = j)]
        exact hd
      exact ih _ best (fun x hx => hjs x (List.mem_cons_of_mem j hx)) hb
        h12 h22 hd2

/-- Decomposition of a row's candidate positions around the diagonal:
`b2j` on equal sequences always lists the diagonal position `t`, with the
sorted positions below `t` before it and those above `t` after it. -/
theorem b2j_split (s : List Char) (t : Nat) (ht : t < s.length) :
    ∃ pre post, b2j s (s.getD t ' ') = pre ++ t :: post ∧
      (∀ j ∈ pre, j < t) ∧ (∀ j ∈ post, t < j) ∧
      (∀ j ∈ pre, j < s.length) := by
  have hmem : t ∈ b2j s (s.getD t ' ') := by
    unfold b2j
    rw [List.mem_filter]
    exact ⟨List.mem_range.mpr ht, by simp⟩
  obtain ⟨pre, post, hsplit⟩ := List.mem_iff_append.mp hmem
  have hpw : List.Pairwise (· < ·) (b2j s (s.getD t ' ')) :=
    List.Pairwise.sublist (List.filter_sublist _) (List.pairwise_lt_range _)
  rw [hsplit] at hpw
  rw [List.pairwise_append] at hpw
  refine ⟨pre, post, hsplit, ?_, ?_, ?_⟩
  · intro j hj
    exact hpw.2.2 j hj t (List.mem_cons_self _ _)
  · intro j hj
    exact (List.pairwise_cons.mp hpw.2.1).1 j hj
  · intro j hj
    have : j ∈ b2j s (s.getD t ' ') := by
      rw [hsplit]
      exact List.mem_append.mpr (Or.inl hj)
    unfold b2j at this
    rw [List.mem_filter] at this
    exact List.mem_range.mp this.1

/-- One full row of the scan on equal sequences: starting from the
previous row's dictionary (runs bounded by `t` and by position, diagonal
entry exactly `t`) and a best block of size at most `t`, the row ends
with the best block `(0, 0, t + 1)` (set at the diagonal) and a
dictionary satisfying the same invariants one row further. -/
theorem flmInner_row (n t : Nat) (j2len : Nat → Nat) (ht : t < n)
    (hrow1 : ∀ j, j2len j ≤ t) (hrow2 : ∀ j, j2len j ≤ j + 1)
    (hdiag : 1 ≤ t → j2len (t - 1) = t)
    (pre post : List Nat)
    (hpre : ∀ j ∈ pre, j < t) (hpost : ∀ j ∈ post, t < j)
    (hpren : ∀ j ∈ pre, j < n)
    (best : Nat × Nat × Nat) (hb : best.2.2 ≤ t) :
    (flmInner 0 n t j2len (pre ++ t :: post) (fun _ => 0) best).2 =
      (0, 0, t + 1) ∧
    (∀ j, (flmInner 0 n t j2len (pre ++ t :: post) (fun _ => 0) best).1 j ≤
      t + 1) ∧
    (∀ j, (flmInner 0 n t j2len (pre ++ t :: post) (fun _ => 0) best).1 j ≤
      j + 1) ∧
    (flmInner 0 n t j2len (pre ++ t :: post) (fun _ => 0) best).1 t =
      t + 1 := by
  rw [flmInner_append 0 n t j2len pre (t :: post) hpren]
  obtain ⟨hb1, h11, h21, hnl1⟩ := flmInner_preDiag n t j2len hrow2 pre
    (fun _ => 0) best hpre hb (fun _ => by dsimp only; omega)
    (fun _ => by dsimp only; omega)
  set nl1 := (flmInner 0 n t j2len pre (fun _ => 0) best).1 with hnl1def
  set best1 := (flmInner 0 n t j2len pre (fun _ => 0) best).2 with hbest1def
  simp only [flmInner, if_neg (by omega : ¬ t < 0), if_neg (by omega : ¬ n ≤ t)]
  set K := (if t = 0 then 0 else j2len (t - 1)) + 1 with hKdef
  have hKt : K = t + 1 := by
    rw [hKdef]
    by_cases ht0 : t = 0
    · rw [if_pos ht0, ht0]
    · rw [if_neg ht0, hdiag (by omega)]
  rw [if_pos (by omega : best1.2.2 < K)]
  have hstep := flmInner_postDiag n t j2len hrow1 post
    (fun j' => if j' = t then K else nl1 j')
    (t + 1 - K, t + 1 - K, K)
    hpost
    (by show K = t + 1; exact hKt)
    (by intro x
        dsimp only
        split
        · omega
        · exact h11 x)
    (by intro x
        dsimp only
        split
        · rename_i hxt
          omega
        · exact h21 x)
    (by dsimp only
        rw [if_pos rfl]
        exact hKt)
  refine ⟨?_, hstep.2.1, hstep.2.2.1, hstep.2.2.2⟩
  rw [hstep.1]
  rw [hKt]
  simp

/-- Iterating the rows on equal sequences from any row `t` with a valid
previous-row dictionary ends with the best block `(0, 0, n)`. -/
theorem flmOuter_self (s : List Char) :
    ∀ (m t : Nat), t + m = s.length → 1 ≤ m →
      ∀ (j2len : Nat → Nat) (best : Nat × Nat × Nat),
        (∀ j, j2len j ≤ t) → (∀ j, j2len j ≤ j + 1) →
        (1 ≤ t → j2len (t - 1) = t) → best.2.2 ≤ t →
        flmOuter s s 0 s.length (List.range' t m) j2len best =
          (0, 0, s.length) := by
  intro m
  induction m with
  | zero =>
    intro t _ hm
    exact absurd hm (by omega)
  | succ m ih =>
    intro t ht hm j2len best hr1 hr2 hd hb
    have htn : t < s.length := by omega
    obtain ⟨pre, post, hsp, hpre, hpost, hpren⟩ := b2j_split s t htn
    have hrow := flmInner_row s.length t j2len htn hr1 hr2 hd pre post
      hpre hpost hpren best hb
    rw [List.range'_succ]
    simp only [flmOuter]
    rw [hsp]
    by_cases hm0 : m = 0
    · subst hm0
      simp only [flmOuter]
      rw [hrow.1]
      have : t + 1 = s.length := by omega
      rw [this]
    · refine ih (t + 1) (by omega) (by omega) _ _
        hrow.2.1 hrow.2.2.1 ?_ ?_
      · intro _
        have : t + 1 - 1 = t := by omega
        rw [this]
        exact hrow.2.2.2
      · rw [hrow.1]

/-- `find_longest_match` on two copies of a non-empty sequence returns
the whole diagonal (and neither extension loop can extend it). -/
theorem find_longest_match_self (s : List Char) (hn : 1 ≤ s.length) :
    find_longest_match s s 0 s.length 0 s.length = (0, 0, s.length) := by
  have h1 : flmOuter s s 0 s.length (List.range' 0 (s.length - 0))
      (fun _ => 0) (0, 0, 0) = (0, 0, s.length) := by
    rw [Nat.sub_zero]
    exact flmOuter_self s s.length 0 (by omega) hn (fun _ => 0) (0, 0, 0)
      (fun _ => Nat.le_refl 0) (fun j => Nat.zero_le (j + 1))
      (fun h => absurd h (by omega)) (Nat.le_refl 0)
  unfold find_longest_match
  rw [h1]
  simp only [flmExtendLeft]
  rw [show s.length - (0 + s.length) = 0 from by omega]
  rfl

/-- On equal non-empty sequences the block recursion returns the single
whole-diagonal block. -/
theorem get_matching_blocks_self (s : List Char) (hn : 1 ≤ s.length) :
    get_matching_blocks s s = [(0, 0, s.length)] := by
  unfold get_matching_blocks
  simp only [matchingBlocksRec]
  rw [find_longest_match_self s hn]
  rw [if_neg (show ¬ (0, 0, s.length).2.2 = 0 from by
    show ¬ s.length = 0
    omega)]
  rw [if_neg (show ¬ (0 < (0, 0, s.length).1 ∧ 0 < (0, 0, s.length).2.1) from by
    show ¬ (0 < 0 ∧ 0 < 0)
    omega)]
  rw [if_neg (show ¬ ((0, 0, s.length).1 + (0, 0, s.length).2.2 < s.length ∧
      (0, 0, s.length).2.1 + (0, 0, s.length).2.2 < s.length) from by
    show ¬ (0 + s.length < s.length ∧ 0 + s.length < s.length)
    omega)]
  rfl

theorem matchesSum_self (s : List Char) (hn : 1 ≤ s.length) :
    matchesSum s s = s.length := by
  unfold matchesSum
  rw [get_matching_blocks_self s hn]
  simp

/-- C6 amended.  The similarity metric is not symmetric in general (see
the counterexample), but a normalized text compared with itself — and
hence with any line-for-line identical copy — always scores exactly 1:
on equal sequences the matcher finds the single whole-sequence block, so
the ratio is `2n / (n + n) = 1` (and `difflib` defines the empty-empty
comparison to be 1 as well). -/
theorem ratioOf_self (s : List Char) : ratioOf s s = 1 := by
  by_cases hn : 1 ≤ s.length
  · unfold ratioOf
    rw [if_pos (by omega : s.length + s.length ≠ 0), matchesSum_self s hn]
    have h2 : ((s.length : ℚ) + s.length) ≠ 0 := by
      have h3 : ((s.length + s.length : ℕ) : ℚ) ≠ 0 :=
        Nat.cast_ne_zero.mpr (by omega)
      push_cast at h3
      exact h3
    rw [div_eq_one_iff_eq h2]
    ring
  · unfold ratioOf
    rw [if_neg (by omega)]
